import Mathlib

/-!
# Backend-connection protocol engine of the auth client

A shallow embedding of `src/lib-auth/auth-server-connection.c`: the handshake
line handlers (`MECH`, `SPID`, `CUID`, `DONE`), the processing pass
`auth_client_input`, connection creation and teardown, and the two lookup
functions `auth_server_connection_find_path` / `auth_server_connection_find_mech`.

Conventions of the embedding:

* C strings are `String`s; `line + n` is `ptr_add line n`.
* A `struct auth_server_connection *` is an index into `World.objs`; the
  client's linked list (`client->connections`, `conn->next`) is the list of such
  indices, head first.
* `unsigned int` fields are `Nat`s kept below `2 ^ 32` by explicit `%`.
* `i_assert` failing is `none`.
* `i_error` / `i_warning` only write to the log and are not represented.
-/

namespace AuthConn

/-! ## C library string functions -/

/-- Sign of the first differing character, the result of `strcmp` on the characters. -/
def strcmp_chars : List Char → List Char → Int
  | [], [] => 0
  | [], _ :: _ => -1
  | _ :: _, [] => 1
  | a :: as, b :: bs =>
    if a.toNat < b.toNat then -1
    else if b.toNat < a.toNat then 1
    else strcmp_chars as bs

/-- The C library `strcmp(a, b)`: negative, zero or positive. -/
def strcmp (a b : String) : Int := strcmp_chars a.data b.data

/-- The C library `strncmp(a, b, n)`: `strcmp` on at most the first `n` characters. -/
def strncmp (a b : String) (n : Nat) : Int := strcmp_chars (a.data.take n) (b.data.take n)

/-- The C library `tolower` in the C locale: only `A`..`Z` are changed. -/
def tolower (c : Char) : Char :=
  if 65 ≤ c.toNat ∧ c.toNat ≤ 90 then Char.ofNat (c.toNat + 32) else c

/-- The C library `strcasecmp(a, b)`: `strcmp` on the lower-cased characters. -/
def strcasecmp (a b : String) : Int :=
  strcmp_chars (a.data.map tolower) (b.data.map tolower)

/-- Pointer arithmetic on a C string, `s + n` for `n` at most the length of `s`. -/
def ptr_add (s : String) (n : Nat) : String := String.mk (s.data.drop n)

/-- The C library `isspace` in the C locale. -/
def isspace (c : Char) : Bool :=
  c = ' ' || c = '\t' || c = '\n' || c = Char.ofNat 11 || c = Char.ofNat 12 || c = '\r'

/-- The digit loop of `strtoul` in base 10: the value of the longest prefix of digits. -/
def strtoul_digits : Nat → List Char → Nat
  | acc, [] => acc
  | acc, c :: cs =>
    if 48 ≤ c.toNat ∧ c.toNat ≤ 57 then strtoul_digits (acc * 10 + (c.toNat - 48)) cs
    else acc

/-- Largest `unsigned long` (LP64). -/
def ULONG_MAX : Nat := 2 ^ 64 - 1

/-- The C library `strtoul(nptr, NULL, 10)`: leading white space is skipped, one
sign is accepted, the digits are read, the value saturates at `ULONG_MAX` and a
minus sign negates it as an `unsigned long`. -/
def strtoul (nptr : String) : Nat :=
  match nptr.data.dropWhile isspace with
  | '-' :: rest =>
    let v := strtoul_digits 0 rest
    if ULONG_MAX < v then ULONG_MAX else (2 ^ 64 - v) % 2 ^ 64
  | '+' :: rest =>
    let v := strtoul_digits 0 rest
    if ULONG_MAX < v then ULONG_MAX else v
  | rest =>
    let v := strtoul_digits 0 rest
    if ULONG_MAX < v then ULONG_MAX else v

/-- The cast `(unsigned int)x`. -/
def to_uint (x : Nat) : Nat := x % 2 ^ 32

/-! ## Helpers of the repository that the file calls -/

/-- Fields of a character sequence cut at every separator; empty fields are kept. -/
def strsplit_chars (seps : List Char) : List Char → List (List Char)
  | [] => [[]]
  | c :: cs =>
    if c ∈ seps then [] :: strsplit_chars seps cs
    else
      match strsplit_chars seps cs with
      | [] => [[c]]
      | f :: fs => (c :: f) :: fs

/-- Modelled from the spec: `t_strsplit` (lib/strfuncs.c is not part of the
sources at hand). A line is "tab-separated": the data is cut at every separator
character and the fields are returned in order, NULL-terminated; empty data gives
the empty array, which is the case the caller tests with `list[0] == NULL`. -/
def t_strsplit (data separators : String) : List String :=
  if data = "" then [] else (strsplit_chars separators.data data.data).map String.mk

/-- Modelled from the spec: `enum mech_security_flags` (auth-client-interface.h is
not part of the sources at hand): the descriptor's flags are a bitset of seven
flags, one bit each. -/
def MECH_SEC_PRIVATE : Nat := 0x0001

/-- Modelled from the spec: second flag of the descriptor bitset, see `MECH_SEC_PRIVATE`. -/
def MECH_SEC_ANONYMOUS : Nat := 0x0002

/-- Modelled from the spec: third flag of the descriptor bitset, see `MECH_SEC_PRIVATE`. -/
def MECH_SEC_PLAINTEXT : Nat := 0x0004

/-- Modelled from the spec: fourth flag of the descriptor bitset, see `MECH_SEC_PRIVATE`. -/
def MECH_SEC_DICTIONARY : Nat := 0x0008

/-- Modelled from the spec: fifth flag of the descriptor bitset, see `MECH_SEC_PRIVATE`. -/
def MECH_SEC_ACTIVE : Nat := 0x0010

/-- Modelled from the spec: sixth flag of the descriptor bitset, see `MECH_SEC_PRIVATE`. -/
def MECH_SEC_FORWARD_SECRECY : Nat := 0x0020

/-- Modelled from the spec: seventh flag of the descriptor bitset, see `MECH_SEC_PRIVATE`. -/
def MECH_SEC_MUTUAL_AUTH : Nat := 0x0040

/-! ## Data model -/

/-- The mechanism descriptor `struct auth_mech_desc`. -/
structure auth_mech_desc where
  name : String
  flags : Nat
deriving DecidableEq, Repr

/-- The fields of `struct auth_server_connection` that the file reads or writes.
`available_auth_mechs` stands for the pair `available_auth_mechs` /
`available_auth_mechs_count`: the descriptors that pointer and count denote.
`input_closed` / `output_closed` record `i_stream_close` / `o_stream_close`,
`requests` is the key set of the pending-request table, and `released` counts how
often `auth_server_connection_unref` has released the owned resources. -/
structure auth_server_connection where
  refcount : Int
  path : String
  fd : Int
  io : Bool
  ext_input_io : Bool
  input_closed : Bool
  output_closed : Bool
  server_pid : Nat
  connect_uid : Nat
  requests : List Nat
  auth_mechs_buf : List auth_mech_desc
  available_auth_mechs : List auth_mech_desc
  handshake_received : Bool
  has_plain_mech : Bool
  released : Nat
deriving DecidableEq, Repr

/-- The fields of `struct auth_client` that the file reads or writes.
`connect_notify_callback` and `ext_input_add` say whether the function pointer is
non-NULL. `notified` is the sequence of statuses the notification callback has
been called with, and `reconnects` counts the calls of
`auth_client_connect_missing_servers`. -/
structure auth_client where
  pid : Nat
  connections : List Nat
  conn_waiting_handshake_count : Nat
  available_auth_mechs : List auth_mech_desc
  connect_notify_callback : Bool
  ext_input_add : Bool
  notified : List Bool
  reconnects : Nat
deriving DecidableEq, Repr

/-- The client together with the connection objects its pointers refer to. -/
structure World where
  client : auth_client
  objs : List auth_server_connection
deriving DecidableEq, Repr

/-- Modelled from the spec: `auth_client_find_mech` (auth-client.c is not part of
the sources at hand). The global table is looked up "by exact name match": the
first entry with that name, or NULL. -/
def auth_client_find_mech (client : auth_client) (name : String) : Option auth_mech_desc :=
  client.available_auth_mechs.find? (fun m => decide (m.name = name))

/-- Modelled from the spec: `auth_client_is_connected` (auth-client.c is not part
of the sources at hand). "Connectivity is ready once the waiting-handshake count
reaches zero." -/
def auth_client_is_connected (client : auth_client) : Bool :=
  decide (client.conn_waiting_handshake_count = 0)

/-- Modelled from the spec: `auth_client_connect_missing_servers` (auth-client.c
is not part of the sources at hand). The client "attempts to (re)open connections
for every configured backend path that currently lacks a live connection"; the
configured paths and the outcome of the connects are outside this file, so only
the request is recorded. -/
def auth_client_connect_missing_servers (client : auth_client) : auth_client :=
  { client with reconnects := client.reconnects + 1 }

/-- Modelled from the spec: `auth_server_requests_remove_all`
(auth-server-request.c is not part of the sources at hand). Every entry
remaining in the pending-request table is failed, and "the connection's
pending-request table is empty afterward". -/
def auth_server_requests_remove_all (conn : auth_server_connection) : auth_server_connection :=
  { conn with requests := [] }

/-- Modelled from the spec: `auth_client_input_ok`, `auth_client_input_cont` and
`auth_client_input_fail` (auth-server-request.c is not part of the sources at
hand). The request-result lines are "opaque to this component, forwarded" to the
request framework, so the three handlers are parameters: each gets the client,
the connection and the line's arguments, and returns its verdict and the state it
leaves. -/
structure request_handlers where
  auth_client_input_ok :
    auth_client → auth_server_connection → String → Bool × auth_client × auth_server_connection
  auth_client_input_cont :
    auth_client → auth_server_connection → String → Bool × auth_client × auth_server_connection
  auth_client_input_fail :
    auth_client → auth_server_connection → String → Bool × auth_client × auth_server_connection

/-- Request handlers that accept every line and change nothing. -/
def idle_handlers : request_handlers :=
  { auth_client_input_ok := fun client conn _ => (true, client, conn)
    auth_client_input_cont := fun client conn _ => (true, client, conn)
    auth_client_input_fail := fun client conn _ => (true, client, conn) }

/-- The statement `x--` on an `unsigned int`. -/
def uint_dec (x : Nat) : Nat := (x + (2 ^ 32 - 1)) % 2 ^ 32

/-- The statement `x++` on an `unsigned int`. -/
def uint_inc (x : Nat) : Nat := (x + 1) % 2 ^ 32

/-! ## The functions of auth-server-connection.c -/

/-- The loop of `update_available_auth_mechs` over the connection's descriptors:
a descriptor whose name the global table does not have yet is appended to it. -/
def update_available_auth_mechs_loop : auth_client → List auth_mech_desc → auth_client
  | client, [] => client
  | client, mech :: rest =>
    if (auth_client_find_mech client mech.name).isNone then
      update_available_auth_mechs_loop
        { client with available_auth_mechs := client.available_auth_mechs ++ [mech] } rest
    else update_available_auth_mechs_loop client rest

/-- The function `update_available_auth_mechs(conn)`, on `conn->client`. -/
def update_available_auth_mechs (client : auth_client) (conn : auth_server_connection) :
    auth_client :=
  update_available_auth_mechs_loop client conn.available_auth_mechs

/-- The token loop of `auth_client_input_mech`: `flags` after the remaining tokens. -/
def mech_flags_loop : Nat → List String → Nat
  | flags, [] => flags
  | flags, tok :: rest =>
    if strcmp tok "private" = 0 then mech_flags_loop (flags ||| MECH_SEC_PRIVATE) rest
    else if strcmp tok "anonymous" = 0 then mech_flags_loop (flags ||| MECH_SEC_ANONYMOUS) rest
    else if strcmp tok "plaintext" = 0 then mech_flags_loop (flags ||| MECH_SEC_PLAINTEXT) rest
    else if strcmp tok "dictionary" = 0 then mech_flags_loop (flags ||| MECH_SEC_DICTIONARY) rest
    else if strcmp tok "active" = 0 then mech_flags_loop (flags ||| MECH_SEC_ACTIVE) rest
    else if strcmp tok "forward-secrecy" = 0 then
      mech_flags_loop (flags ||| MECH_SEC_FORWARD_SECRECY) rest
    else if strcmp tok "mutual-auth" = 0 then
      mech_flags_loop (flags ||| MECH_SEC_MUTUAL_AUTH) rest
    else mech_flags_loop flags rest

/-- The handler `auth_client_input_mech(conn, args)`: its return value and the connection. -/
def auth_client_input_mech (conn : auth_server_connection) (args : String) :
    Bool × auth_server_connection :=
  if conn.handshake_received then (false, conn)
  else
    match t_strsplit args "\t" with
    | [] => (false, conn)
    | name :: list =>
      let conn1 := if strcmp name "PLAIN" = 0 then { conn with has_plain_mech := true } else conn
      let mech_desc : auth_mech_desc := { name := name, flags := mech_flags_loop 0 list }
      (true, { conn1 with auth_mechs_buf := conn1.auth_mechs_buf ++ [mech_desc] })

/-- The handler `auth_client_input_spid(conn, args)`. -/
def auth_client_input_spid (conn : auth_server_connection) (args : String) :
    Bool × auth_server_connection :=
  if conn.handshake_received then (false, conn)
  else (true, { conn with server_pid := to_uint (strtoul args) })

/-- The handler `auth_client_input_cuid(conn, args)`. -/
def auth_client_input_cuid (conn : auth_server_connection) (args : String) :
    Bool × auth_server_connection :=
  if conn.handshake_received then (false, conn)
  else (true, { conn with connect_uid := to_uint (strtoul args) })

/-- The handler `auth_client_input_done(conn)`, on `conn->client` and `conn`. -/
def auth_client_input_done (client : auth_client) (conn : auth_server_connection) :
    Bool × auth_client × auth_server_connection :=
  let conn1 : auth_server_connection :=
    { conn with available_auth_mechs := conn.auth_mechs_buf, handshake_received := true }
  let client1 : auth_client :=
    { client with conn_waiting_handshake_count := uint_dec client.conn_waiting_handshake_count }
  let client2 := update_available_auth_mechs client1 conn1
  let client3 : auth_client :=
    if client2.connect_notify_callback && auth_client_is_connected client2 then
      { client2 with notified := client2.notified ++ [true] }
    else client2
  (true, client3, conn1)

/-- The function `auth_server_connection_unref(conn)`: the connection after the
call, or `none` when `i_assert(conn->refcount == 0)` fails. -/
def auth_server_connection_unref (conn : auth_server_connection) :
    Option auth_server_connection :=
  let conn1 := { conn with refcount := conn.refcount - 1 }
  if 0 < conn1.refcount then some conn1
  else if conn1.refcount = 0 then some { conn1 with released := conn1.released + 1 }
  else none

/-- The unlink loop of `auth_server_connection_destroy`: the first list cell that
is `conn` is taken out of the list. -/
def unlink_connection (conn : Nat) : List Nat → List Nat
  | [] => []
  | pos :: next => if pos = conn then next else pos :: unlink_connection conn next

/-- The function `auth_server_connection_destroy(conn, reconnect)`, on
`conn->client` and on the object `conn` points at. -/
def auth_server_connection_destroy (p : Nat) (client : auth_client)
    (conn : auth_server_connection) (reconnect : Bool) :
    Option (auth_client × auth_server_connection) :=
  if conn.fd = -1 then some (client, conn)
  else
    let client1 : auth_client :=
      { client with connections := unlink_connection p client.connections }
    let client2 : auth_client :=
      if !conn.handshake_received then
        { client1 with
          conn_waiting_handshake_count := uint_dec client1.conn_waiting_handshake_count }
      else client1
    let conn1 : auth_server_connection :=
      { conn with
        ext_input_io := false, io := false, input_closed := true, output_closed := true,
        fd := -1 }
    let conn2 := auth_server_requests_remove_all conn1
    match auth_server_connection_unref conn2 with
    | none => none
    | some conn3 =>
      if reconnect then some (auth_client_connect_missing_servers client2, conn3)
      else if client2.connect_notify_callback then
        some ({ client2 with
                notified := client2.notified ++ [auth_client_is_connected client2] }, conn3)
      else some (client2, conn3)

/-- The dispatch on one line inside the loop of `auth_client_input`: the value of
`ret` and the state the handler leaves. -/
def handle_line (h : request_handlers) (client : auth_client) (conn : auth_server_connection)
    (line : String) : Bool × auth_client × auth_server_connection :=
  if strncmp line "OK\t" 3 = 0 then h.auth_client_input_ok client conn (ptr_add line 3)
  else if strncmp line "CONT\t" 5 = 0 then h.auth_client_input_cont client conn (ptr_add line 5)
  else if strncmp line "FAIL\t" 5 = 0 then h.auth_client_input_fail client conn (ptr_add line 5)
  else if strncmp line "MECH\t" 5 = 0 then
    let r := auth_client_input_mech conn (ptr_add line 5)
    (r.1, client, r.2)
  else if strncmp line "SPID\t" 5 = 0 then
    let r := auth_client_input_spid conn (ptr_add line 5)
    (r.1, client, r.2)
  else if strncmp line "CUID\t" 5 = 0 then
    let r := auth_client_input_cuid conn (ptr_add line 5)
    (r.1, client, r.2)
  else if strcmp line "DONE" = 0 then auth_client_input_done client conn
  else (true, client, conn)

/-- The `while` loop of `auth_client_input` over the lines `i_stream_next_line`
returns, in order: a line whose handler returns FALSE destroys the connection
without reconnect and ends the loop. -/
def input_loop (h : request_handlers) (p : Nat) :
    auth_client → auth_server_connection → List String →
      Option (auth_client × auth_server_connection)
  | client, conn, [] => some (client, conn)
  | client, conn, line :: rest =>
    let r := handle_line h client conn line
    if !r.1 then auth_server_connection_destroy p r.2.1 r.2.2 false
    else input_loop h p r.2.1 r.2.2 rest

/-- Writes a client and the object `p` points at back into the world. -/
def World.put (w : World) (p : Nat) (s : auth_client × auth_server_connection) : World :=
  { client := s.1, objs := w.objs.set p s.2 }

/-- The function `auth_client_input(context)` for the connection `p`: `read` is
what `i_stream_read` returns and `lines` are the complete lines then in the
stream buffer. -/
def auth_client_input (h : request_handlers) (w : World) (p : Nat) (read : Int)
    (lines : List String) : Option World :=
  match w.objs[p]? with
  | none => none
  | some conn =>
    if read = 0 then some w
    else if read = -1 then
      (auth_server_connection_destroy p w.client conn true).map (w.put p)
    else if read = -2 then
      (auth_server_connection_destroy p w.client conn false).map (w.put p)
    else
      match input_loop h p w.client { conn with refcount := conn.refcount + 1 } lines with
      | none => none
      | some (client, conn1) =>
        match auth_server_connection_unref conn1 with
        | none => none
        | some conn2 => some (w.put p (client, conn2))

/-- The object `auth_server_connection_new` allocates (`p_new` zeroes it) and fills
in before it links it: `ext` says whether `client->ext_input_add` is set. -/
def new_connection (path : String) (fd : Int) (ext : Bool) : auth_server_connection :=
  { refcount := 1, path := path, fd := fd,
    io := !ext, ext_input_io := ext,
    input_closed := false, output_closed := false,
    server_pid := 0, connect_uid := 0, requests := [],
    auth_mechs_buf := [], available_auth_mechs := [],
    handshake_received := false, has_plain_mech := false, released := 0 }

/-- The function `auth_server_connection_new(client, path)`: `fd` is what
`net_connect_unix` returns and `sent` says whether `o_stream_send_str` succeeded.
The result is the world and the returned pointer (`none` for NULL). -/
def auth_server_connection_new (w : World) (path : String) (fd : Int) (sent : Bool) :
    Option (World × Option Nat) :=
  if fd = -1 then some (w, none)
  else
    let p := w.objs.length
    let conn := new_connection path fd w.client.ext_input_add
    let client : auth_client :=
      { w.client with
        connections := p :: w.client.connections,
        conn_waiting_handshake_count := uint_inc w.client.conn_waiting_handshake_count }
    if !sent then
      match auth_server_connection_destroy p client conn true with
      | none => none
      | some s => some ({ client := s.1, objs := w.objs ++ [s.2] }, none)
    else some ({ client := client, objs := w.objs ++ [conn] }, some p)

/-- The inner loop of `auth_server_connection_find_mech`: some descriptor of the
list has the name, compared with `strcasecmp`. -/
def mech_list_has : List auth_mech_desc → String → Bool
  | [], _ => false
  | mech :: rest, name => if strcasecmp mech.name name = 0 then true else mech_list_has rest name

/-- The outer loop of `auth_server_connection_find_mech` over the connection list
(a list cell that points at no object is passed over). -/
def find_mech_loop (objs : List auth_server_connection) (name : String) : List Nat → Option Nat
  | [] => none
  | conn :: next =>
    match objs[conn]? with
    | none => find_mech_loop objs name next
    | some c =>
      if mech_list_has c.available_auth_mechs name then some conn
      else find_mech_loop objs name next

/-- The function `auth_server_connection_find_mech(client, name, error_r)`: the
connection it returns, or the text it stores in `*error_r` when it returns NULL. -/
def auth_server_connection_find_mech (w : World) (name : String) : Except String Nat :=
  match find_mech_loop w.objs name w.client.connections with
  | some conn => Except.ok conn
  | none =>
    if (auth_client_find_mech w.client name).isNone then
      Except.error "Unsupported authentication mechanism"
    else Except.error "Authentication server isn't connected, try again later.."

/-- The function `auth_server_connection_find_path(client, path)`. -/
def auth_server_connection_find_path (w : World) (path : String) : Option Nat :=
  w.client.connections.find? (fun conn =>
    match w.objs[conn]? with
    | none => false
    | some c => decide (strcmp c.path path = 0))

/-! ## Vocabulary of the statements -/

/-- The argument string `name TAB tok1 TAB ... TAB tokn` of a `MECH` line. -/
def mech_args : String → List String → String
  | name, [] => name
  | name, tok :: rest => name ++ "\t" ++ mech_args tok rest

/-- The seven capability words of a `MECH` line. -/
def capability_words : List String :=
  ["private", "anonymous", "plaintext", "dictionary", "active", "forward-secrecy", "mutual-auth"]

/-- The flag a capability word stands for; `none` for any other token. -/
def token_flag (tok : String) : Option Nat :=
  if tok = "private" then some MECH_SEC_PRIVATE
  else if tok = "anonymous" then some MECH_SEC_ANONYMOUS
  else if tok = "plaintext" then some MECH_SEC_PLAINTEXT
  else if tok = "dictionary" then some MECH_SEC_DICTIONARY
  else if tok = "active" then some MECH_SEC_ACTIVE
  else if tok = "forward-secrecy" then some MECH_SEC_FORWARD_SECRECY
  else if tok = "mutual-auth" then some MECH_SEC_MUTUAL_AUTH
  else none

/-- Bitwise OR of the flags of the recognized tokens of a list. -/
def flags_of_tokens (toks : List String) : Nat :=
  (toks.filterMap token_flag).foldr (fun f acc => f ||| acc) 0

/-- Two names are equal ignoring ASCII case. -/
def eq_ignoring_case (a b : String) : Prop :=
  a.data.map Char.toLower = b.data.map Char.toLower

/-- The connection `p` of the world offers the mechanism `name`: its advertised
list has a descriptor whose name equals `name` ignoring ASCII case. -/
def offers_mech (w : World) (p : Nat) (name : String) : Prop :=
  ∃ c, w.objs[p]? = some c ∧ ∃ m ∈ c.available_auth_mechs, eq_ignoring_case m.name name

/-- A client that has opened no connection yet and knows no mechanism. -/
def empty_client (pid : Nat) (notify ext : Bool) : auth_client :=
  { pid := pid, connections := [], conn_waiting_handshake_count := 0,
    available_auth_mechs := [], connect_notify_callback := notify, ext_input_add := ext,
    notified := [], reconnects := 0 }

/-- One processing pass as the event loop delivers it: the connection whose
socket became readable, what `i_stream_read` returned and the buffered lines. -/
structure pass where
  conn : Nat
  read : Int
  lines : List String
deriving DecidableEq, Repr

/-- A sequence of processing passes, each starting in the world the one before it left. -/
def run_passes (h : request_handlers) : World → List pass → Option World
  | w, [] => some w
  | w, e :: rest =>
    match auth_client_input h w e.conn e.read e.lines with
    | none => none
    | some w1 => run_passes h w1 rest

/-- A request-result line: one of the prefixes `OK TAB`, `CONT TAB`, `FAIL TAB`. -/
def is_request_line (line : String) : Prop :=
  strncmp line "OK\t" 3 = 0 ∨ strncmp line "CONT\t" 5 = 0 ∨ strncmp line "FAIL\t" 5 = 0

/-- The mechanism lists that the `DONE` lines handled by the loop of
`auth_client_input` publish, in the order of these lines: for each `DONE` the
list the connection advertises once the line is handled. -/
def loop_published (h : request_handlers) :
    auth_client → auth_server_connection → List String → List (List auth_mech_desc)
  | _, _, [] => []
  | client, conn, line :: rest =>
    let r := handle_line h client conn line
    (if line = "DONE" then [r.2.2.available_auth_mechs] else []) ++
      (if r.1 then loop_published h r.2.1 r.2.2 rest else [])

/-- The mechanism lists published during one processing pass. -/
def pass_published (h : request_handlers) (w : World) (e : pass) : List (List auth_mech_desc) :=
  match w.objs[e.conn]? with
  | none => []
  | some conn =>
    if e.read = 0 ∨ e.read = -1 ∨ e.read = -2 then []
    else loop_published h w.client { conn with refcount := conn.refcount + 1 } e.lines

/-- The mechanism lists published during a sequence of passes, in order. -/
def run_published (h : request_handlers) : World → List pass → List (List auth_mech_desc)
  | _, [] => []
  | w, e :: rest =>
    pass_published h w e ++
      (match auth_client_input h w e.conn e.read e.lines with
       | none => []
       | some w1 => run_published h w1 rest)

/-- Names of the descriptors of a table, in order. -/
def mech_names (table : List auth_mech_desc) : List String := table.map (fun m => m.name)

/-- The first descriptor of a list with the given name. -/
def first_with_name (l : List auth_mech_desc) (name : String) : Option auth_mech_desc :=
  l.find? (fun m => decide (m.name = name))

/-- The table `t1` is the table `t0` merged with the published lists `pub`: it has
no name twice if `t0` had none, and looking a name up in it gives the first
descriptor of that name in `t0` followed by the published lists. -/
def table_merges (t0 t1 : List auth_mech_desc) (pub : List (List auth_mech_desc)) : Prop :=
  ((mech_names t0).Nodup → (mech_names t1).Nodup) ∧
    ∀ name, first_with_name t1 name = first_with_name (t0 ++ pub.flatten) name

/-- The client `auth_server_connection_destroy` leaves when it tears down a live
connection `p`: `hs` is the connection's `handshake_received`. -/
def destroy_client (p : Nat) (client : auth_client) (hs reconnect : Bool) : auth_client :=
  let client1 : auth_client :=
    { client with connections := unlink_connection p client.connections }
  let client2 : auth_client :=
    if !hs then
      { client1 with
        conn_waiting_handshake_count := uint_dec client1.conn_waiting_handshake_count }
    else client1
  if reconnect then auth_client_connect_missing_servers client2
  else if client2.connect_notify_callback then
    { client2 with notified := client2.notified ++ [auth_client_is_connected client2] }
  else client2

/-- The connection `auth_server_connection_destroy` hands to
`auth_server_connection_unref` when it tears down a live connection. -/
def closed_connection (conn : auth_server_connection) : auth_server_connection :=
  auth_server_requests_remove_all
    { conn with
      ext_input_io := false, io := false, input_closed := true, output_closed := true,
      fd := -1 }

instance is_request_line_decidable (line : String) : Decidable (is_request_line line) := by
  unfold is_request_line
  infer_instance

/-- A client with a registered notification target and two connections that were
just opened, `auth-b` (pointer 1) after `auth-a` (pointer 0): the world that two
calls of `auth_server_connection_new` on `empty_client 100 true false` leave. -/
def two_connections : World :=
  { client :=
      { empty_client 100 true false with
        connections := [1, 0], conn_waiting_handshake_count := 2 }
    objs := [new_connection "auth-a" 5 false, new_connection "auth-b" 6 false] }

/-- Both connections of `two_connections` advertise `PLAIN` and `LOGIN` with
different flags; `auth-a` sends its `MECH` lines first, `auth-b` is the first to
send `DONE`. -/
def handshake_race : List pass :=
  [ { conn := 0, read := 30, lines := ["MECH\tPLAIN\tplaintext", "MECH\tLOGIN"] },
    { conn := 1, read := 40, lines := ["MECH\tLOGIN\tplaintext", "MECH\tPLAIN", "DONE"] },
    { conn := 0, read := 5, lines := ["DONE"] } ]

/-- The descriptors `auth-a` sends in `handshake_race`. -/
def mechs_a : List auth_mech_desc :=
  [{ name := "PLAIN", flags := MECH_SEC_PLAINTEXT }, { name := "LOGIN", flags := 0 }]

/-- The descriptors `auth-b` sends in `handshake_race`. -/
def mechs_b : List auth_mech_desc :=
  [{ name := "LOGIN", flags := MECH_SEC_PLAINTEXT }, { name := "PLAIN", flags := 0 }]

/-- The world `handshake_race` leaves: the global table has the flags of `auth-b`. -/
def after_handshake_race : World :=
  { client :=
      { empty_client 100 true false with
        connections := [1, 0], conn_waiting_handshake_count := 0,
        available_auth_mechs := mechs_b, notified := [true] }
    objs :=
      [ { new_connection "auth-a" 5 false with
          auth_mechs_buf := mechs_a, available_auth_mechs := mechs_a,
          handshake_received := true, has_plain_mech := true },
        { new_connection "auth-b" 6 false with
          auth_mechs_buf := mechs_b, available_auth_mechs := mechs_b,
          handshake_received := true, has_plain_mech := true } ] }

/-- The test of the inner loop of `auth_server_connection_find_mech` on the
connection a list cell points at. -/
def conn_has_mech (objs : List auth_server_connection) (name : String) (p : Nat) : Bool :=
  match objs[p]? with
  | none => false
  | some c => mech_list_has c.available_auth_mechs name

/-- The world after both backends of `after_handshake_race` closed their sockets
and no new connection could be opened: the global table still knows both names. -/
def backends_lost : World :=
  { client :=
      { empty_client 100 true false with
        connections := [], conn_waiting_handshake_count := 0,
        available_auth_mechs := mechs_b, notified := [true], reconnects := 2 }
    objs :=
      [ { new_connection "auth-a" (-1) false with
          refcount := 0, io := false, input_closed := true, output_closed := true,
          auth_mechs_buf := mechs_a, available_auth_mechs := mechs_a,
          handshake_received := true, has_plain_mech := true, released := 1 },
        { new_connection "auth-b" (-1) false with
          refcount := 0, io := false, input_closed := true, output_closed := true,
          auth_mechs_buf := mechs_b, available_auth_mechs := mechs_b,
          handshake_received := true, has_plain_mech := true, released := 1 } ] }

/-- The connection `auth-b` of `after_handshake_race`, whose handshake is complete. -/
def ready_connection : auth_server_connection :=
  { new_connection "auth-b" 6 false with
    auth_mechs_buf := mechs_b, available_auth_mechs := mechs_b,
    handshake_received := true, has_plain_mech := true }

/-- The state after the handlers of the lines were applied in order, whatever
they returned. -/
def handle_lines (h : request_handlers) :
    auth_client → auth_server_connection → List String → auth_client × auth_server_connection
  | client, conn, [] => (client, conn)
  | client, conn, line :: rest =>
    handle_lines h (handle_line h client conn line).2.1 (handle_line h client conn line).2.2 rest

/-- Every line of the list is accepted (`ret` is TRUE) when the lines are
handled in order. -/
def lines_accepted (h : request_handlers) :
    auth_client → auth_server_connection → List String → Bool
  | _, _, [] => true
  | client, conn, line :: rest =>
    (handle_line h client conn line).1 &&
      lines_accepted h (handle_line h client conn line).2.1
        (handle_line h client conn line).2.2 rest

/-- The world the pass `MECH PLAIN`, `DONE`, `MECH LOGIN`, `SPID 9`, `DONE` on
`auth-b` leaves from `two_connections`: `auth-b` is unlinked, closed and released
with the state it had after the first `DONE`; no reconnect was requested and the
notification target was told "not connected". -/
def after_mech_after_done : World :=
  { client :=
      { empty_client 100 true false with
        connections := [0], conn_waiting_handshake_count := 1,
        available_auth_mechs := [{ name := "PLAIN", flags := 0 }], notified := [false] }
    objs :=
      [ new_connection "auth-a" 5 false,
        { new_connection "auth-b" (-1) false with
          refcount := 0, io := false, input_closed := true, output_closed := true,
          auth_mechs_buf := [{ name := "PLAIN", flags := 0 }],
          available_auth_mechs := [{ name := "PLAIN", flags := 0 }],
          handshake_received := true, has_plain_mech := true, released := 1 } ] }

/-- The lines of the handshake scenario, as `i_stream_next_line` returns them. -/
def handshake_lines : List String :=
  ["SPID\t42", "CUID\t7", "MECH\tPLAIN", "MECH\tLOGIN\tplaintext", "DONE"]

/-- The two descriptors the handshake scenario advertises. -/
def handshake_mechs : List auth_mech_desc :=
  [{ name := "PLAIN", flags := 0 }, { name := "LOGIN", flags := MECH_SEC_PLAINTEXT }]

/-- The connection `auth_server_connection_unref` leaves when the reference
count it finds is positive: the count is dropped, and at 1 the owned resources
are released. -/
def unref_result (conn : auth_server_connection) : auth_server_connection :=
  if conn.refcount = 1 then { conn with refcount := 0, released := conn.released + 1 }
  else { conn with refcount := conn.refcount - 1 }

/-- The call `auth_server_connection_destroy(conn, reconnect)` on the pointer `p`
of a world; a pointer to no object leaves the world as it is. -/
def destroy_connection (w : World) (p : Nat) (reconnect : Bool) : Option World :=
  match w.objs[p]? with
  | none => some w
  | some conn => (auth_server_connection_destroy p w.client conn reconnect).map (w.put p)

/-- The line starts with the given prefix. -/
def starts_with (line pre : String) : Prop := pre.data <+: line.data

instance starts_with_decidable (line pre : String) : Decidable (starts_with line pre) := by
  unfold starts_with
  infer_instance

/-- An unknown command line: not exactly `DONE` and without any of the six
command prefixes. -/
def is_unknown_line (line : String) : Prop :=
  line ≠ "DONE" ∧ ¬ starts_with line "OK\t" ∧ ¬ starts_with line "CONT\t" ∧
    ¬ starts_with line "FAIL\t" ∧ ¬ starts_with line "MECH\t" ∧
    ¬ starts_with line "SPID\t" ∧ ¬ starts_with line "CUID\t"

instance is_unknown_line_decidable (line : String) : Decidable (is_unknown_line line) := by
  unfold is_unknown_line
  infer_instance

/-- The connection `p` of the world has the given path, byte for byte. -/
def has_path (w : World) (p : Nat) (path : String) : Prop :=
  ∃ c, w.objs[p]? = some c ∧ c.path = path

/-- The result `r` of a request handler called on `client` and `conn` differs from
them at most in the pending-request table of the connection. -/
def only_requests (client : auth_client) (conn : auth_server_connection)
    (r : Bool × auth_client × auth_server_connection) : Prop :=
  r.2.1 = client ∧ r.2.2 = { conn with requests := r.2.2.requests }

/-- Modelled from the spec: what is assumed of the request framework
(auth-server-request.c is not part of the sources at hand) where a statement
covers request-result lines: the handlers of `OK`, `CONT` and `FAIL` work on the
connection's pending-request table only. -/
def request_frame (h : request_handlers) : Prop :=
  ∀ client conn args,
    only_requests client conn (h.auth_client_input_ok client conn args) ∧
      only_requests client conn (h.auth_client_input_cont client conn args) ∧
      only_requests client conn (h.auth_client_input_fail client conn args)

/-- The mechanism name of a `MECH` line, the first tab-separated field of its
arguments; `none` for any other line. -/
def mech_line_name (line : String) : Option String :=
  if starts_with line "MECH\t" then (t_strsplit (ptr_add line 5) "\t").head? else none

/-- Some line of the list, handled in order, is an accepted `MECH` line with the
name `PLAIN`. -/
def plain_accepted (h : request_handlers) :
    auth_client → auth_server_connection → List String → Bool
  | _, _, [] => false
  | client, conn, line :: rest =>
    ((handle_line h client conn line).1 && decide (mech_line_name line = some "PLAIN")) ||
      plain_accepted h (handle_line h client conn line).2.1
        (handle_line h client conn line).2.2 rest

/-- The list cell `q` points at a connection that has not completed its handshake. -/
def is_waiting (w : World) (q : Nat) : Bool :=
  match w.objs[q]? with
  | none => false
  | some c => !c.handshake_received

/-- The number of connections linked in the client's list that have not completed
their handshake. -/
def waiting_connections (w : World) : Nat :=
  (w.client.connections.filter (is_waiting w)).length

/-- A connection of the client's list other than `p` has not completed its handshake. -/
def others_waiting (w : World) (p : Nat) : Bool :=
  w.client.connections.any (fun q => decide (q ≠ p) && is_waiting w q)

/-- What happens to a client from outside the processing of one line: a backend
path is opened, the socket of a connection becomes readable, or the owner of the
client destroys a connection. -/
inductive event where
  | connect (path : String) (fd : Int) (sent : Bool)
  | input (conn : Nat) (read : Int) (lines : List String)
  | destroy (conn : Nat) (reconnect : Bool)
deriving DecidableEq, Repr

/-- Modelled from the spec: the reactor (ioloop.c is not part of the sources at
hand) "delivers socket readable notifications" to the callback a connection
registered with `io_add` or `ext_input_add`, and stops once the registration is
removed: a processing pass runs only on a connection that is still registered. -/
def deliver_input (h : request_handlers) (w : World) (p : Nat) (read : Int)
    (lines : List String) : Option World :=
  match w.objs[p]? with
  | none => some w
  | some conn =>
    if conn.io || conn.ext_input_io then auth_client_input h w p read lines else some w

/-- The world after one event. -/
def step (h : request_handlers) (w : World) : event → Option World
  | event.connect path fd sent => (auth_server_connection_new w path fd sent).map (fun r => r.1)
  | event.input p read lines => deliver_input h w p read lines
  | event.destroy p reconnect => destroy_connection w p reconnect

/-- The world after a sequence of events. -/
def run_events (h : request_handlers) : World → List event → Option World
  | w, [] => some w
  | w, e :: rest =>
    match step h w e with
    | none => none
    | some w1 => run_events h w1 rest

/-- The connection `c1` has the socket handle, reference count, release count and
reactor registration of `c`. -/
def same_life (c c1 : auth_server_connection) : Prop :=
  c1.fd = c.fd ∧ c1.refcount = c.refcount ∧ c1.released = c.released ∧ c1.io = c.io ∧
    c1.ext_input_io = c.ext_input_io

/-- A connection between two events that is in use: socket open, registered with
the reactor, one reference, nothing released. -/
def live (c : auth_server_connection) : Prop :=
  c.fd ≠ -1 ∧ c.refcount = 1 ∧ c.released = 0 ∧ (c.io || c.ext_input_io) = true

/-- A connection that has been torn down: socket closed, registration removed, no
reference left, owned resources released exactly once. -/
def dead (c : auth_server_connection) : Prop :=
  c.fd = -1 ∧ c.refcount = 0 ∧ c.released = 1 ∧ c.io = false ∧ c.ext_input_io = false

/-- The lifetime invariant of a world: the client's list has no cell twice and
points at objects only, and every connection object is either live or is dead
and unlinked. -/
def lifetime_ok (w : World) : Prop :=
  w.client.connections.Nodup ∧ (∀ q ∈ w.client.connections, q < w.objs.length) ∧
    ∀ p c, w.objs[p]? = some c → live c ∨ (dead c ∧ p ∉ w.client.connections)

/-- A connection that has not completed its handshake advertises nothing. -/
def gated (c : auth_server_connection) : Prop :=
  c.handshake_received = false → c.available_auth_mechs = []

/-- Every connection object of the world that has not completed its handshake
advertises nothing. -/
def all_gated (w : World) : Prop :=
  ∀ (q : Nat) (c : auth_server_connection), w.objs[q]? = some c → gated c

/-- A client that has opened nothing yet, with a registered notification target. -/
def empty_world : World := { client := empty_client 100 true false, objs := [] }

/-- Two backends are opened; `auth-b` sends `MECH` after `DONE` and is destroyed
in the middle of its pass; a later readable event and a second destroy for it
come to nothing; `auth-a` advertises `PLAIN`; opening `auth-c` fails at the first
write; the owner destroys `auth-a`. -/
def lifetime_events : List event :=
  [ event.connect "auth-a" 5 true, event.connect "auth-b" 6 true,
    event.input 1 40 ["MECH\tPLAIN", "DONE", "MECH\tLOGIN", "SPID\t9"],
    event.input 1 10 ["DONE"], event.destroy 1 true,
    event.input 0 12 ["MECH\tPLAIN"], event.connect "auth-c" 7 false,
    event.destroy 0 false ]

/-- One backend is opened and advertises `PLAIN`, without `DONE`. -/
def handshake_pending_events : List event :=
  [event.connect "auth-a" 5 true, event.input 0 11 ["MECH\tPLAIN"]]

/-- The lines of a sequence of passes with the connection each arrives on, in
arrival order. -/
def lines_in_arrival_order : List pass → List (Nat × String)
  | [] => []
  | e :: rest => e.lines.map (fun l => (e.conn, l)) ++ lines_in_arrival_order rest

/-- A client with a registered notification target and three connections that
were just opened, `auth-a` (pointer 0), `auth-b` (pointer 1) and `auth-c`
(pointer 2): the world that three calls of `auth_server_connection_new` on
`empty_client 100 true false` leave. -/
def three_connections : World :=
  { client :=
      { empty_client 100 true false with
        connections := [2, 1, 0], conn_waiting_handshake_count := 3 }
    objs :=
      [new_connection "auth-a" 5 false, new_connection "auth-b" 6 false,
        new_connection "auth-c" 7 false] }

/-- The world the pass `DONE`, `DONE` on `auth-c` leaves from `three_connections`:
the counter is 1 while `auth-a` and `auth-b` are both in the handshake phase. -/
def after_repeated_done : World :=
  { client :=
      { empty_client 100 true false with
        connections := [2, 1, 0], conn_waiting_handshake_count := 1 }
    objs :=
      [new_connection "auth-a" 5 false, new_connection "auth-b" 6 false,
        { new_connection "auth-c" 7 false with handshake_received := true }] }

/-! ## Lemmas on the string functions -/

theorem char_eq_of_toNat_eq {a b : Char} (h : a.toNat = b.toNat) : a = b := by
  have h2 := congrArg Char.ofNat h
  simpa using h2

theorem strcmp_chars_eq_zero_iff (a b : List Char) : strcmp_chars a b = 0 ↔ a = b := by
  induction a generalizing b with
  | nil => cases b <;> simp [strcmp_chars]
  | cons x xs ih =>
    cases b with
    | nil => simp [strcmp_chars]
    | cons y ys =>
      simp only [strcmp_chars]
      by_cases h1 : x.toNat < y.toNat
      · have hne : x ≠ y := fun e => by subst e; exact absurd h1 (lt_irrefl _)
        simp [h1, hne]
      · by_cases h2 : y.toNat < x.toNat
        · have hne : x ≠ y := fun e => by subst e; exact absurd h2 (lt_irrefl _)
          simp [h1, h2, hne]
        · have hxy : x = y := char_eq_of_toNat_eq (Nat.le_antisymm (not_lt.mp h2) (not_lt.mp h1))
          simp [h1, h2, hxy, ih]

theorem strcmp_eq_zero_iff (a b : String) : strcmp a b = 0 ↔ a = b := by
  unfold strcmp
  rw [strcmp_chars_eq_zero_iff, String.ext_iff]

theorem strsplit_chars_no_sep (seps : List Char) (a : List Char) (h : ∀ c ∈ a, c ∉ seps) :
    strsplit_chars seps a = [a] := by
  induction a with
  | nil => rfl
  | cons c cs ih =>
    have hc : c ∉ seps := h c (List.mem_cons_self _ _)
    have ih2 := ih (fun d hd => h d (List.mem_cons_of_mem _ hd))
    simp [strsplit_chars, hc, ih2]

theorem strsplit_chars_append (seps : List Char) (a : List Char) (s : Char) (rest : List Char)
    (h : ∀ c ∈ a, c ∉ seps) (hs : s ∈ seps) :
    strsplit_chars seps (a ++ s :: rest) = a :: strsplit_chars seps rest := by
  induction a with
  | nil => simp [strsplit_chars, hs]
  | cons c cs ih =>
    have hc : c ∉ seps := h c (List.mem_cons_self _ _)
    have ih2 := ih (fun d hd => h d (List.mem_cons_of_mem _ hd))
    simp [strsplit_chars, hc, ih2]

theorem strsplit_mech_args (name : String) (toks : List String)
    (hname : '\t' ∉ name.data) (htoks : ∀ t ∈ toks, '\t' ∉ t.data) :
    (strsplit_chars ['\t'] (mech_args name toks).data).map String.mk = name :: toks := by
  induction toks generalizing name with
  | nil =>
    have h : ∀ c ∈ name.data, c ∉ ['\t'] := by
      intro c hc hmem
      simp only [List.mem_singleton] at hmem
      subst hmem
      exact hname hc
    simp [mech_args, strsplit_chars_no_sep _ _ h]
  | cons t ts ih =>
    have h : ∀ c ∈ name.data, c ∉ ['\t'] := by
      intro c hc hmem
      simp only [List.mem_singleton] at hmem
      subst hmem
      exact hname hc
    have ih2 := ih t (htoks t (List.mem_cons_self _ _))
      (fun u hu => htoks u (List.mem_cons_of_mem _ hu))
    have hd : (mech_args name (t :: ts)).data = name.data ++ '\t' :: (mech_args t ts).data := by
      simp [mech_args, String.data_append]
    rw [hd, strsplit_chars_append _ _ _ _ h (List.mem_singleton_self _)]
    simp [ih2]

theorem mech_args_eq_empty_iff (name : String) (toks : List String) :
    mech_args name toks = "" ↔ name = "" ∧ toks = [] := by
  cases toks with
  | nil => simp [mech_args]
  | cons t ts =>
    simp only [mech_args, String.ext_iff, String.data_append]
    simp

theorem t_strsplit_mech_args (name : String) (toks : List String)
    (hname : '\t' ∉ name.data) (htoks : ∀ t ∈ toks, '\t' ∉ t.data)
    (hne : mech_args name toks ≠ "") :
    t_strsplit (mech_args name toks) "\t" = name :: toks := by
  unfold t_strsplit
  rw [if_neg hne]
  exact strsplit_mech_args name toks hname htoks

theorem flags_of_tokens_cons_some (t : String) (ts : List String) (f : Nat)
    (h : token_flag t = some f) : flags_of_tokens (t :: ts) = f ||| flags_of_tokens ts := by
  simp [flags_of_tokens, List.filterMap_cons, h]

theorem flags_of_tokens_cons_none (t : String) (ts : List String)
    (h : token_flag t = none) : flags_of_tokens (t :: ts) = flags_of_tokens ts := by
  simp [flags_of_tokens, List.filterMap_cons, h]

theorem mech_flags_loop_eq (flags : Nat) (toks : List String) :
    mech_flags_loop flags toks = flags ||| flags_of_tokens toks := by
  induction toks generalizing flags with
  | nil => simp [mech_flags_loop, flags_of_tokens]
  | cons t ts ih =>
    simp only [mech_flags_loop, strcmp_eq_zero_iff]
    split_ifs with h1 h2 h3 h4 h5 h6 h7
    · rw [ih, flags_of_tokens_cons_some t ts MECH_SEC_PRIVATE (by simp [token_flag, h1]),
        Nat.lor_assoc]
    · rw [ih, flags_of_tokens_cons_some t ts MECH_SEC_ANONYMOUS (by simp [token_flag, h1, h2]),
        Nat.lor_assoc]
    · rw [ih, flags_of_tokens_cons_some t ts MECH_SEC_PLAINTEXT (by simp [token_flag, h1, h2, h3]),
        Nat.lor_assoc]
    · rw [ih, flags_of_tokens_cons_some t ts MECH_SEC_DICTIONARY (by simp [token_flag, h1, h2, h3, h4]),
        Nat.lor_assoc]
    · rw [ih, flags_of_tokens_cons_some t ts MECH_SEC_ACTIVE (by simp [token_flag, h1, h2, h3, h4, h5]),
        Nat.lor_assoc]
    · rw [ih, flags_of_tokens_cons_some t ts MECH_SEC_FORWARD_SECRECY (by simp [token_flag, h1, h2, h3, h4, h5, h6]),
        Nat.lor_assoc]
    · rw [ih, flags_of_tokens_cons_some t ts MECH_SEC_MUTUAL_AUTH (by simp [token_flag, h1, h2, h3, h4, h5, h6, h7]),
        Nat.lor_assoc]
    · rw [ih, flags_of_tokens_cons_none t ts
        (by simp [token_flag, h1, h2, h3, h4, h5, h6, h7])]

theorem token_flag_eq_none_iff (t : String) : token_flag t = none ↔ t ∉ capability_words := by
  unfold token_flag capability_words
  split_ifs <;> simp_all

theorem flags_of_tokens_append (l1 l2 : List String) :
    flags_of_tokens (l1 ++ l2) = flags_of_tokens l1 ||| flags_of_tokens l2 := by
  induction l1 with
  | nil => simp [flags_of_tokens]
  | cons t ts ih =>
    cases h : token_flag t with
    | none =>
      rw [List.cons_append, flags_of_tokens_cons_none _ _ h, flags_of_tokens_cons_none _ _ h, ih]
    | some f =>
      rw [List.cons_append, flags_of_tokens_cons_some _ _ _ h,
        flags_of_tokens_cons_some _ _ _ h, ih, Nat.lor_assoc]

theorem flags_of_tokens_unrecognized (us : List String) (h : ∀ u ∈ us, u ∉ capability_words) :
    flags_of_tokens us = 0 := by
  induction us with
  | nil => simp [flags_of_tokens]
  | cons t ts ih =>
    rw [flags_of_tokens_cons_none _ _
      ((token_flag_eq_none_iff t).mpr (h t (List.mem_cons_self _ _)))]
    exact ih (fun u hu => h u (List.mem_cons_of_mem _ hu))

theorem auth_client_input_mech_args (conn : auth_server_connection) (name : String)
    (toks : List String) (hs : conn.handshake_received = false)
    (hname : '\t' ∉ name.data) (htoks : ∀ t ∈ toks, '\t' ∉ t.data)
    (hne : mech_args name toks ≠ "") :
    auth_client_input_mech conn (mech_args name toks) =
      (true, { conn with
          has_plain_mech := conn.has_plain_mech || decide (name = "PLAIN"),
          auth_mechs_buf :=
            conn.auth_mechs_buf ++ [{ name := name, flags := flags_of_tokens toks }] }) := by
  unfold auth_client_input_mech
  rw [t_strsplit_mech_args name toks hname htoks hne]
  simp only [hs, mech_flags_loop_eq, strcmp_eq_zero_iff]
  by_cases hp : name = "PLAIN" <;> simp [hp, hs]

theorem strncmp_eq_zero_iff (a b : String) (n : Nat) :
    strncmp a b n = 0 ↔ a.data.take n = b.data.take n := by
  unfold strncmp
  exact strcmp_chars_eq_zero_iff _ _

theorem strncmp_prefix_disjoint (line a b : String) (n m : Nat) (hnm : n ≤ m)
    (ha : strncmp line a m = 0) (hab : (a.data.take m).take n ≠ b.data.take n) :
    ¬ strncmp line b n = 0 := by
  intro hb
  rw [strncmp_eq_zero_iff] at ha hb
  apply hab
  rw [← ha, List.take_take, Nat.min_eq_left hnm, hb]

/-! ## Lemmas on the lookup by mechanism -/

theorem tolower_eq_toLower (c : Char) : tolower c = c.toLower := by
  unfold tolower Char.toLower
  simp only [ge_iff_le]

theorem strcasecmp_eq_zero_iff (a b : String) : strcasecmp a b = 0 ↔ eq_ignoring_case a b := by
  unfold strcasecmp eq_ignoring_case
  rw [strcmp_chars_eq_zero_iff]
  have hf : tolower = Char.toLower := funext tolower_eq_toLower
  rw [hf]

theorem mech_list_has_iff (l : List auth_mech_desc) (name : String) :
    mech_list_has l name = true ↔ ∃ m ∈ l, eq_ignoring_case m.name name := by
  induction l with
  | nil => simp [mech_list_has]
  | cons m rest ih =>
    unfold mech_list_has
    by_cases hm : strcasecmp m.name name = 0
    · rw [if_pos hm]
      simp only [List.mem_cons, true_iff]
      exact ⟨m, Or.inl rfl, (strcasecmp_eq_zero_iff _ _).mp hm⟩
    · rw [if_neg hm, ih]
      have hm2 : ¬ eq_ignoring_case m.name name :=
        fun h0 => hm ((strcasecmp_eq_zero_iff _ _).mpr h0)
      constructor
      · rintro ⟨x, hx, he⟩
        exact ⟨x, List.mem_cons_of_mem _ hx, he⟩
      · rintro ⟨x, hx, he⟩
        rcases List.mem_cons.mp hx with hx | hx
        · subst hx
          exact absurd he hm2
        · exact ⟨x, hx, he⟩

theorem conn_has_mech_iff (w : World) (name : String) (p : Nat) :
    conn_has_mech w.objs name p = true ↔ offers_mech w p name := by
  unfold conn_has_mech offers_mech
  cases hc : w.objs[p]? with
  | none => simp
  | some c => simp [mech_list_has_iff]

theorem find_mech_loop_eq_find (objs : List auth_server_connection) (name : String)
    (l : List Nat) : find_mech_loop objs name l = l.find? (conn_has_mech objs name) := by
  induction l with
  | nil => rfl
  | cons p rest ih =>
    unfold find_mech_loop
    rw [List.find?_cons]
    unfold conn_has_mech
    cases hc : objs[p]? with
    | none => simpa [conn_has_mech] using ih
    | some c =>
      simp only []
      cases hm : mech_list_has c.available_auth_mechs name with
      | true => simp
      | false => simpa [conn_has_mech] using ih

theorem find_mech_loop_eq_some_iff (w : World) (name : String) (l : List Nat) (p : Nat) :
    find_mech_loop w.objs name l = some p ↔
      ∃ l1 l2, l = l1 ++ p :: l2 ∧ offers_mech w p name ∧ ∀ q ∈ l1, ¬ offers_mech w q name := by
  rw [find_mech_loop_eq_find, List.find?_eq_some]
  constructor
  · rintro ⟨hp, l1, l2, hl, hn⟩
    refine ⟨l1, l2, hl, (conn_has_mech_iff w name p).mp hp, ?_⟩
    intro q hq ho
    have := hn q hq
    rw [(conn_has_mech_iff w name q).mpr ho] at this
    simp at this
  · rintro ⟨l1, l2, hl, hp, hn⟩
    refine ⟨(conn_has_mech_iff w name p).mpr hp, l1, l2, hl, ?_⟩
    intro q hq
    have hq2 : ¬ conn_has_mech w.objs name q = true :=
      fun h0 => hn q hq ((conn_has_mech_iff w name q).mp h0)
    simpa using hq2

theorem find_mech_loop_eq_none_iff (w : World) (name : String) (l : List Nat) :
    find_mech_loop w.objs name l = none ↔ ∀ q ∈ l, ¬ offers_mech w q name := by
  rw [find_mech_loop_eq_find, List.find?_eq_none]
  constructor
  · intro hn q hq ho
    exact hn q hq ((conn_has_mech_iff w name q).mpr ho)
  · intro hn q hq ho
    exact hn q hq ((conn_has_mech_iff w name q).mp ho)

theorem find_mech_none_iff (client : auth_client) (name : String) :
    (auth_client_find_mech client name).isNone = true ↔
      name ∉ mech_names client.available_auth_mechs := by
  unfold auth_client_find_mech mech_names
  rw [Option.isNone_iff_eq_none, List.find?_eq_none]
  simp

/-! ## Lemmas on the merge into the global table -/

theorem table_merges_refl (t : List auth_mech_desc) : table_merges t t [] := by
  constructor
  · exact fun hn => hn
  · intro name
    simp

theorem table_merges_trans (t0 t1 t2 : List auth_mech_desc) (p1 p2 : List (List auth_mech_desc))
    (h1 : table_merges t0 t1 p1) (h2 : table_merges t1 t2 p2) :
    table_merges t0 t2 (p1 ++ p2) := by
  constructor
  · exact fun hn => h2.1 (h1.1 hn)
  · intro name
    have e1 := h1.2 name
    have e2 := h2.2 name
    unfold first_with_name at *
    rw [e2, List.find?_append, e1]
    simp only [List.flatten_append, List.find?_append, Option.or_assoc]

theorem update_loop_frame (client : auth_client) (l : List auth_mech_desc) :
    update_available_auth_mechs_loop client l =
      { client with
        available_auth_mechs := (update_available_auth_mechs_loop client l).available_auth_mechs }
    := by
  induction l generalizing client with
  | nil => rfl
  | cons m rest ih =>
    unfold update_available_auth_mechs_loop
    split_ifs with hf
    · rw [ih]
    · rw [ih]

theorem mem_mech_names_iff (t : List auth_mech_desc) (name : String) :
    name ∈ mech_names t ↔ (first_with_name t name).isSome = true := by
  unfold mech_names first_with_name
  rw [List.find?_isSome]
  simp

theorem update_loop_merges (client : auth_client) (l : List auth_mech_desc) :
    table_merges client.available_auth_mechs
      (update_available_auth_mechs_loop client l).available_auth_mechs [l] := by
  induction l generalizing client with
  | nil =>
    simpa [update_available_auth_mechs_loop] using table_merges_refl client.available_auth_mechs
  | cons m rest ih =>
    unfold update_available_auth_mechs_loop
    split_ifs with hf
    · have ih2 := ih { client with available_auth_mechs := client.available_auth_mechs ++ [m] }
      have hnone : first_with_name client.available_auth_mechs m.name = none := by
        simpa [auth_client_find_mech, first_with_name] using hf
      constructor
      · intro hn
        apply ih2.1
        have hnot : m.name ∉ mech_names client.available_auth_mechs := by
          rw [mem_mech_names_iff, hnone]
          simp
        simp only [mech_names, List.map_append, List.map_cons, List.map_nil] at hnot ⊢
        rw [List.nodup_append]
        refine ⟨hn, List.nodup_singleton _, ?_⟩
        intro a ha hb
        rw [List.mem_singleton] at hb
        subst hb
        exact hnot ha
      · intro name
        have e := ih2.2 name
        simp only [List.flatten_cons, List.flatten_nil, List.append_nil] at e ⊢
        rw [e, List.append_assoc]
        rfl
    · have ih2 := ih client
      have hsome : (first_with_name client.available_auth_mechs m.name).isSome = true := by
        simpa [auth_client_find_mech, first_with_name] using hf
      constructor
      · exact ih2.1
      · intro name
        have e := ih2.2 name
        simp only [List.flatten_cons, List.flatten_nil, List.append_nil] at e ⊢
        rw [e]
        unfold first_with_name at hsome ⊢
        rw [List.find?_append, List.find?_append]
        by_cases hname : m.name = name
        · subst hname
          rcases Option.isSome_iff_exists.mp hsome with ⟨x, hx⟩
          rw [hx]
          rfl
        · rw [List.find?_cons_of_neg]
          simpa using hname

theorem destroy_eq (p : Nat) (client : auth_client) (conn : auth_server_connection)
    (reconnect : Bool) :
    auth_server_connection_destroy p client conn reconnect =
      if conn.fd = -1 then some (client, conn)
      else
        (auth_server_connection_unref (closed_connection conn)).map
          (fun conn3 => (destroy_client p client conn.handshake_received reconnect, conn3)) := by
  unfold auth_server_connection_destroy closed_connection destroy_client
  by_cases hfd : conn.fd = -1
  · rw [if_pos hfd, if_pos hfd]
  · rw [if_neg hfd, if_neg hfd]
    simp only []
    cases auth_server_connection_unref (auth_server_requests_remove_all
      { conn with
        ext_input_io := false, io := false, input_closed := true, output_closed := true,
        fd := -1 }) with
    | none => rfl
    | some c3 =>
      simp only [Option.map_some']
      split_ifs <;> rfl

theorem destroy_client_table (p : Nat) (client : auth_client) (hs reconnect : Bool) :
    (destroy_client p client hs reconnect).available_auth_mechs = client.available_auth_mechs := by
  unfold destroy_client auth_client_connect_missing_servers
  simp only []
  split_ifs <;> rfl

theorem destroy_table (p : Nat) (client : auth_client) (conn : auth_server_connection)
    (reconnect : Bool) (s : auth_client × auth_server_connection)
    (hd : auth_server_connection_destroy p client conn reconnect = some s) :
    s.1.available_auth_mechs = client.available_auth_mechs := by
  rw [destroy_eq] at hd
  split_ifs at hd with hfd
  · cases hd
    rfl
  · rcases Option.map_eq_some'.mp hd with ⟨c3, _, hs⟩
    subst hs
    exact destroy_client_table _ _ _ _

theorem done_table (client : auth_client) (conn : auth_server_connection) :
    table_merges client.available_auth_mechs
      (auth_client_input_done client conn).2.1.available_auth_mechs
      [(auth_client_input_done client conn).2.2.available_auth_mechs] := by
  have hm := update_loop_merges
    { client with conn_waiting_handshake_count := uint_dec client.conn_waiting_handshake_count }
    conn.auth_mechs_buf
  unfold auth_client_input_done update_available_auth_mechs
  simp only []
  split_ifs <;> exact hm

theorem handle_line_merges (h : request_handlers) (client : auth_client)
    (conn : auth_server_connection) (line : String) (hl : ¬ is_request_line line) :
    table_merges client.available_auth_mechs
      (handle_line h client conn line).2.1.available_auth_mechs
      (if line = "DONE" then [(handle_line h client conn line).2.2.available_auth_mechs]
       else []) := by
  unfold is_request_line at hl
  push_neg at hl
  obtain ⟨hok, hcont, hfail⟩ := hl
  unfold handle_line
  rw [if_neg hok, if_neg hcont, if_neg hfail]
  by_cases hdone : line = "DONE"
  · subst hdone
    rw [if_neg (by decide), if_neg (by decide), if_neg (by decide), if_pos (by decide),
      if_pos rfl]
    exact done_table client conn
  · rw [if_neg hdone]
    have hs : ¬ strcmp line "DONE" = 0 := fun h0 => hdone ((strcmp_eq_zero_iff _ _).mp h0)
    rw [if_neg hs]
    split_ifs <;> exact table_merges_refl _

theorem input_loop_merges (h : request_handlers) (p : Nat) (lines : List String)
    (hl : ∀ l ∈ lines, ¬ is_request_line l) (client : auth_client)
    (conn : auth_server_connection) (s : auth_client × auth_server_connection)
    (hrun : input_loop h p client conn lines = some s) :
    table_merges client.available_auth_mechs s.1.available_auth_mechs
      (loop_published h client conn lines) := by
  induction lines generalizing client conn with
  | nil =>
    simp only [input_loop] at hrun
    cases hrun
    exact table_merges_refl _
  | cons line rest ih =>
    have h1 := handle_line_merges h client conn line (hl line (List.mem_cons_self _ _))
    simp only [input_loop] at hrun
    simp only [loop_published]
    cases hr : (handle_line h client conn line).1 with
    | false =>
      simp only [hr] at hrun
      have hd := destroy_table _ _ _ _ _ hrun
      simp only [Bool.false_eq_true, if_false]
      rw [hd]
      simpa using table_merges_trans _ _ _ _ [] h1 (table_merges_refl _)
    | true =>
      simp only [hr] at hrun
      have h2 := ih (fun l hm => hl l (List.mem_cons_of_mem _ hm)) _ _ hrun
      simp only [if_true]
      exact table_merges_trans _ _ _ _ _ h1 h2

theorem pass_merges (h : request_handlers) (w w1 : World) (e : pass)
    (hl : ∀ l ∈ e.lines, ¬ is_request_line l)
    (hrun : auth_client_input h w e.conn e.read e.lines = some w1) :
    table_merges w.client.available_auth_mechs w1.client.available_auth_mechs
      (pass_published h w e) := by
  unfold auth_client_input at hrun
  unfold pass_published
  cases hc : w.objs[e.conn]? with
  | none => simp [hc] at hrun
  | some conn =>
    simp only [hc] at hrun ⊢
    by_cases h0 : e.read = 0
    · simp only [h0, if_true] at hrun
      cases hrun
      simpa [h0] using table_merges_refl w.client.available_auth_mechs
    · by_cases h1 : e.read = -1
      · simp only [h1, if_true] at hrun
        simp only [h1]
        rcases Option.map_eq_some'.mp hrun with ⟨s, hs, hw⟩
        subst hw
        have hd := destroy_table _ _ _ _ _ hs
        simp only [World.put, hd]
        simpa using table_merges_refl w.client.available_auth_mechs
      · by_cases h2 : e.read = -2
        · simp only [h2, if_true] at hrun
          simp only [h2]
          rcases Option.map_eq_some'.mp hrun with ⟨s, hs, hw⟩
          subst hw
          have hd := destroy_table _ _ _ _ _ hs
          simp only [World.put, hd]
          simpa using table_merges_refl w.client.available_auth_mechs
        · simp only [h0, h1, h2, if_false, or_self] at hrun ⊢
          cases hloop : input_loop h e.conn w.client
              { conn with refcount := conn.refcount + 1 } e.lines with
          | none => simp [hloop] at hrun
          | some s =>
            have hm := input_loop_merges h e.conn e.lines hl _ _ s hloop
            simp only [hloop] at hrun
            cases hu : auth_server_connection_unref s.2 with
            | none => simp [hu] at hrun
            | some c2 =>
              simp only [hu] at hrun
              cases hrun
              exact hm

theorem run_merges (h : request_handlers) (passes : List pass)
    (hl : ∀ e ∈ passes, ∀ l ∈ e.lines, ¬ is_request_line l) (w w1 : World)
    (hrun : run_passes h w passes = some w1) :
    table_merges w.client.available_auth_mechs w1.client.available_auth_mechs
      (run_published h w passes) := by
  induction passes generalizing w with
  | nil =>
    simp only [run_passes] at hrun
    cases hrun
    exact table_merges_refl _
  | cons e rest ih =>
    simp only [run_passes] at hrun
    simp only [run_published]
    cases hp : auth_client_input h w e.conn e.read e.lines with
    | none => simp [hp] at hrun
    | some w2 =>
      simp only [hp] at hrun ⊢
      have h1 := pass_merges h w w2 e (hl e (List.mem_cons_self _ _)) hp
      have h2 := ih (fun e2 hm => hl e2 (List.mem_cons_of_mem _ hm)) w2 hrun
      exact table_merges_trans _ _ _ _ _ h1 h2

/-! ## Lemmas on the processing pass -/

theorem input_loop_first_violation (h : request_handlers) (p : Nat) (pre : List String)
    (lk : String) (post : List String) (client : auth_client) (conn : auth_server_connection)
    (hpre : lines_accepted h client conn pre = true)
    (hk : (handle_line h (handle_lines h client conn pre).1
      (handle_lines h client conn pre).2 lk).1 = false) :
    input_loop h p client conn (pre ++ lk :: post) =
      auth_server_connection_destroy p (handle_lines h client conn (pre ++ [lk])).1
        (handle_lines h client conn (pre ++ [lk])).2 false := by
  induction pre generalizing client conn with
  | nil =>
    simp only [handle_lines] at hk
    simp [input_loop, handle_lines, hk]
  | cons l rest ih =>
    simp only [lines_accepted, Bool.and_eq_true] at hpre
    simp only [handle_lines] at hk
    have ih2 := ih _ _ hpre.2 hk
    simp only [List.cons_append, input_loop, handle_lines, hpre.1]
    simpa using ih2

theorem destroy_client_no_reconnect (p : Nat) (client : auth_client) (hs : Bool) :
    (destroy_client p client hs false).reconnects = client.reconnects := by
  unfold destroy_client
  simp only [Bool.false_eq_true, if_false]
  split_ifs <;> rfl

theorem destroy_no_reconnect (p : Nat) (client : auth_client) (conn : auth_server_connection)
    (s : auth_client × auth_server_connection)
    (hd : auth_server_connection_destroy p client conn false = some s) :
    s.1.reconnects = client.reconnects := by
  rw [destroy_eq] at hd
  split_ifs at hd with hfd
  · cases hd
    rfl
  · rcases Option.map_eq_some'.mp hd with ⟨c3, _, hs⟩
    subst hs
    exact destroy_client_no_reconnect _ _ _

theorem handle_line_spid_42 (h : request_handlers) (client : auth_client)
    (conn : auth_server_connection) :
    handle_line h client conn "SPID\t42" =
      ((auth_client_input_spid conn "42").1, client, (auth_client_input_spid conn "42").2) := by
  unfold handle_line
  rw [if_neg (by decide), if_neg (by decide), if_neg (by decide), if_neg (by decide),
    if_pos (by decide)]
  rfl

theorem handle_line_cuid_7 (h : request_handlers) (client : auth_client)
    (conn : auth_server_connection) :
    handle_line h client conn "CUID\t7" =
      ((auth_client_input_cuid conn "7").1, client, (auth_client_input_cuid conn "7").2) := by
  unfold handle_line
  rw [if_neg (by decide), if_neg (by decide), if_neg (by decide), if_neg (by decide),
    if_neg (by decide), if_pos (by decide)]
  rfl

theorem handle_line_mech_plain (h : request_handlers) (client : auth_client)
    (conn : auth_server_connection) :
    handle_line h client conn "MECH\tPLAIN" =
      ((auth_client_input_mech conn "PLAIN").1, client,
        (auth_client_input_mech conn "PLAIN").2) := by
  unfold handle_line
  rw [if_neg (by decide), if_neg (by decide), if_neg (by decide), if_pos (by decide)]
  rfl

theorem handle_line_mech_login (h : request_handlers) (client : auth_client)
    (conn : auth_server_connection) :
    handle_line h client conn "MECH\tLOGIN\tplaintext" =
      ((auth_client_input_mech conn "LOGIN\tplaintext").1, client,
        (auth_client_input_mech conn "LOGIN\tplaintext").2) := by
  unfold handle_line
  rw [if_neg (by decide), if_neg (by decide), if_neg (by decide), if_pos (by decide)]
  rfl

theorem handle_line_done (h : request_handlers) (client : auth_client)
    (conn : auth_server_connection) :
    handle_line h client conn "DONE" = auth_client_input_done client conn := by
  unfold handle_line
  rw [if_neg (by decide), if_neg (by decide), if_neg (by decide), if_neg (by decide),
    if_neg (by decide), if_neg (by decide), if_pos (by decide)]

/-! ## Lemmas on teardown -/

theorem unref_of_pos (conn : auth_server_connection) (hpos : 0 < conn.refcount) :
    auth_server_connection_unref conn = some (unref_result conn) := by
  unfold auth_server_connection_unref unref_result
  simp only []
  by_cases h1 : conn.refcount = 1
  · have h2 : ¬ (0 : Int) < conn.refcount - 1 := by omega
    have h3 : conn.refcount - 1 = 0 := by omega
    simp [h1]
  · have h2 : (0 : Int) < conn.refcount - 1 := by omega
    simp [h1, h2]

theorem unref_fd (conn c1 : auth_server_connection)
    (hu : auth_server_connection_unref conn = some c1) : c1.fd = conn.fd := by
  unfold auth_server_connection_unref at hu
  simp only [] at hu
  split_ifs at hu <;> cases hu <;> rfl

theorem destroy_live (p : Nat) (client : auth_client) (conn : auth_server_connection)
    (reconnect : Bool) (hfd : conn.fd ≠ -1) (hpos : 0 < conn.refcount) :
    auth_server_connection_destroy p client conn reconnect =
      some (destroy_client p client conn.handshake_received reconnect,
        unref_result (closed_connection conn)) := by
  rw [destroy_eq, if_neg hfd, unref_of_pos (closed_connection conn) hpos]
  rfl

theorem destroy_result_fd (p : Nat) (client : auth_client) (conn : auth_server_connection)
    (reconnect : Bool) (s : auth_client × auth_server_connection)
    (hd : auth_server_connection_destroy p client conn reconnect = some s) : s.2.fd = -1 := by
  rw [destroy_eq] at hd
  split_ifs at hd with hfd
  · cases hd
    exact hfd
  · rcases Option.map_eq_some'.mp hd with ⟨c3, hu, hs⟩
    subst hs
    exact unref_fd _ _ hu

theorem destroy_client_reconnect (p : Nat) (client : auth_client) (hs : Bool) :
    (destroy_client p client hs true).reconnects = client.reconnects + 1 ∧
      (destroy_client p client hs true).notified = client.notified := by
  unfold destroy_client auth_client_connect_missing_servers
  simp only [if_true]
  split_ifs <;> exact ⟨rfl, rfl⟩

/-! ## Lemmas on unknown lines and on the lookup by path -/

theorem strncmp_eq_zero_iff_starts_with (line pre : String) (n : Nat)
    (hn : n = pre.data.length) : strncmp line pre n = 0 ↔ starts_with line pre := by
  subst hn
  rw [strncmp_eq_zero_iff, List.take_length]
  unfold starts_with
  rw [List.prefix_iff_eq_take]
  exact eq_comm

theorem handle_line_unknown (h : request_handlers) (client : auth_client)
    (conn : auth_server_connection) (line : String) (hunk : is_unknown_line line) :
    handle_line h client conn line = (true, client, conn) := by
  obtain ⟨hdone, hok, hcont, hfail, hmech, hspid, hcuid⟩ := hunk
  unfold handle_line
  rw [if_neg (fun h0 => hok ((strncmp_eq_zero_iff_starts_with line "OK\t" 3 rfl).mp h0)),
    if_neg (fun h0 => hcont ((strncmp_eq_zero_iff_starts_with line "CONT\t" 5 rfl).mp h0)),
    if_neg (fun h0 => hfail ((strncmp_eq_zero_iff_starts_with line "FAIL\t" 5 rfl).mp h0)),
    if_neg (fun h0 => hmech ((strncmp_eq_zero_iff_starts_with line "MECH\t" 5 rfl).mp h0)),
    if_neg (fun h0 => hspid ((strncmp_eq_zero_iff_starts_with line "SPID\t" 5 rfl).mp h0)),
    if_neg (fun h0 => hcuid ((strncmp_eq_zero_iff_starts_with line "CUID\t" 5 rfl).mp h0)),
    if_neg (fun h0 => hdone ((strcmp_eq_zero_iff line "DONE").mp h0))]

theorem input_loop_skip_unknown (h : request_handlers) (p : Nat) (line : String)
    (hunk : is_unknown_line line) (l1 l2 : List String) (client : auth_client)
    (conn : auth_server_connection) :
    input_loop h p client conn (l1 ++ line :: l2) = input_loop h p client conn (l1 ++ l2) := by
  induction l1 generalizing client conn with
  | nil => simp [input_loop, handle_line_unknown h client conn line hunk]
  | cons l rest ih =>
    simp only [List.cons_append, input_loop]
    split_ifs
    · rfl
    · exact ih _ _

theorem set_same (l : List auth_server_connection) (p : Nat) (c : auth_server_connection)
    (hc : l[p]? = some c) : l.set p c = l := by
  apply List.ext_getElem?
  intro i
  by_cases hi : p = i
  · subst hi
    obtain ⟨hlt, _⟩ := List.getElem?_eq_some.mp hc
    simp [List.getElem?_set, hc, hlt]
  · simp [List.getElem?_set, hi]

theorem put_same (w : World) (p : Nat) (c : auth_server_connection)
    (hc : w.objs[p]? = some c) : w.put p (w.client, c) = w := by
  unfold World.put
  simp only [set_same w.objs p c hc]

theorem find_path_eq_some_iff (w : World) (path : String) (p : Nat) :
    auth_server_connection_find_path w path = some p ↔
      ∃ l1 l2, w.client.connections = l1 ++ p :: l2 ∧ has_path w p path ∧
        ∀ q ∈ l1, ¬ has_path w q path := by
  have hiff : ∀ q, (match w.objs[q]? with
      | none => false
      | some c => decide (strcmp c.path path = 0)) = true ↔ has_path w q path := by
    intro q
    unfold has_path
    cases hc : w.objs[q]? with
    | none => simp
    | some c => simp [strcmp_eq_zero_iff]
  unfold auth_server_connection_find_path
  rw [List.find?_eq_some]
  constructor
  · rintro ⟨hp, l1, l2, hl, hn⟩
    refine ⟨l1, l2, hl, (hiff p).mp hp, ?_⟩
    intro q hq ho
    have hq2 := hn q hq
    rw [(hiff q).mpr ho] at hq2
    simp at hq2
  · rintro ⟨l1, l2, hl, hp, hn⟩
    refine ⟨(hiff p).mpr hp, l1, l2, hl, ?_⟩
    intro q hq
    have hq2 : ¬ (match w.objs[q]? with
        | none => false
        | some c => decide (strcmp c.path path = 0)) = true :=
      fun h0 => hn q hq ((hiff q).mp h0)
    simpa using hq2

theorem find_path_eq_none_iff (w : World) (path : String) :
    auth_server_connection_find_path w path = none ↔
      ∀ q ∈ w.client.connections, ¬ has_path w q path := by
  have hiff : ∀ q, (match w.objs[q]? with
      | none => false
      | some c => decide (strcmp c.path path = 0)) = true ↔ has_path w q path := by
    intro q
    unfold has_path
    cases hc : w.objs[q]? with
    | none => simp
    | some c => simp [strcmp_eq_zero_iff]
  unfold auth_server_connection_find_path
  rw [List.find?_eq_none]
  constructor
  · intro hn q hq ho
    exact hn q hq ((hiff q).mpr ho)
  · intro hn q hq ho
    exact hn q hq ((hiff q).mp ho)

/-! ## Lemmas on the has-plain flag -/

theorem idle_handlers_frame : request_frame idle_handlers := by
  intro client conn args
  exact ⟨⟨rfl, rfl⟩, ⟨rfl, rfl⟩, ⟨rfl, rfl⟩⟩

theorem mech_line_name_of_not_mech (line : String) (hm : ¬ strncmp line "MECH\t" 5 = 0) :
    mech_line_name line = none := by
  unfold mech_line_name
  rw [if_neg (fun h0 => hm ((strncmp_eq_zero_iff_starts_with line "MECH\t" 5 rfl).mpr h0))]

theorem not_mech_line (line pre : String) (n : Nat) (hn : n ≤ 5)
    (hp : strncmp line pre n = 0) (hab : ("MECH\t".data.take 5).take n ≠ pre.data.take n) :
    ¬ strncmp line "MECH\t" 5 = 0 :=
  fun hm => strncmp_prefix_disjoint line "MECH\t" pre n 5 hn hm hab hp

theorem input_mech_plain (conn : auth_server_connection) (args : String) :
    (auth_client_input_mech conn args).2.has_plain_mech =
      (conn.has_plain_mech ||
        ((auth_client_input_mech conn args).1 &&
          decide ((t_strsplit args "\t").head? = some "PLAIN"))) := by
  unfold auth_client_input_mech
  cases hs : conn.handshake_received with
  | true => simp
  | false =>
    simp only [Bool.false_eq_true, if_false]
    cases hl : t_strsplit args "\t" with
    | nil => simp
    | cons name list =>
      simp only [strcmp_eq_zero_iff, List.head?_cons, Option.some.injEq, Bool.true_and]
      by_cases hp : name = "PLAIN" <;> simp [hp]

theorem handle_line_plain (h : request_handlers) (hf : request_frame h) (client : auth_client)
    (conn : auth_server_connection) (line : String) :
    (handle_line h client conn line).2.2.has_plain_mech =
      (conn.has_plain_mech ||
        ((handle_line h client conn line).1 &&
          decide (mech_line_name line = some "PLAIN"))) := by
  have hok := fun args => (hf client conn args).1
  have hcont := fun args => (hf client conn args).2.1
  have hfail := fun args => (hf client conn args).2.2
  unfold handle_line
  by_cases h1 : strncmp line "OK\t" 3 = 0
  · rw [if_pos h1, mech_line_name_of_not_mech line
      (not_mech_line line "OK\t" 3 (by decide) h1 (by decide))]
    have e := (hok (ptr_add line 3)).2
    rw [e]
    simp
  · rw [if_neg h1]
    by_cases h2 : strncmp line "CONT\t" 5 = 0
    · rw [if_pos h2, mech_line_name_of_not_mech line
        (not_mech_line line "CONT\t" 5 (by decide) h2 (by decide))]
      have e := (hcont (ptr_add line 5)).2
      rw [e]
      simp
    · rw [if_neg h2]
      by_cases h3 : strncmp line "FAIL\t" 5 = 0
      · rw [if_pos h3, mech_line_name_of_not_mech line
          (not_mech_line line "FAIL\t" 5 (by decide) h3 (by decide))]
        have e := (hfail (ptr_add line 5)).2
        rw [e]
        simp
      · rw [if_neg h3]
        by_cases h4 : strncmp line "MECH\t" 5 = 0
        · rw [if_pos h4]
          have hn : mech_line_name line = (t_strsplit (ptr_add line 5) "\t").head? := by
            unfold mech_line_name
            rw [if_pos ((strncmp_eq_zero_iff_starts_with line "MECH\t" 5 rfl).mp h4)]
          rw [hn]
          exact input_mech_plain conn (ptr_add line 5)
        · rw [if_neg h4, mech_line_name_of_not_mech line h4]
          unfold auth_client_input_spid auth_client_input_cuid auth_client_input_done
          split_ifs <;> simp

theorem handle_lines_plain (h : request_handlers) (hf : request_frame h) (lines : List String)
    (client : auth_client) (conn : auth_server_connection) :
    (handle_lines h client conn lines).2.has_plain_mech =
      (conn.has_plain_mech || plain_accepted h client conn lines) := by
  induction lines generalizing client conn with
  | nil => simp [handle_lines, plain_accepted]
  | cons l rest ih =>
    simp only [handle_lines, plain_accepted]
    rw [ih, handle_line_plain h hf client conn l, Bool.or_assoc]

theorem unref_plain (conn c1 : auth_server_connection)
    (hu : auth_server_connection_unref conn = some c1) :
    c1.has_plain_mech = conn.has_plain_mech := by
  unfold auth_server_connection_unref at hu
  simp only [] at hu
  split_ifs at hu <;> cases hu <;> rfl

theorem destroy_plain (p : Nat) (client : auth_client) (conn : auth_server_connection)
    (reconnect : Bool) (s : auth_client × auth_server_connection)
    (hd : auth_server_connection_destroy p client conn reconnect = some s) :
    s.2.has_plain_mech = conn.has_plain_mech := by
  rw [destroy_eq] at hd
  split_ifs at hd with hfd
  · cases hd
    rfl
  · rcases Option.map_eq_some'.mp hd with ⟨c3, hu, hs⟩
    subst hs
    exact unref_plain (closed_connection conn) c3 hu

theorem mech_line_of_args (h : request_handlers) (client : auth_client)
    (conn : auth_server_connection) (args : String) :
    handle_line h client conn ("MECH\t" ++ args) =
      ((auth_client_input_mech conn args).1, client, (auth_client_input_mech conn args).2) ∧
      mech_line_name ("MECH\t" ++ args) = (t_strsplit args "\t").head? := by
  have hst : starts_with ("MECH\t" ++ args) "MECH\t" := by
    unfold starts_with
    rw [String.data_append]
    exact List.prefix_append _ _
  have h4 : strncmp ("MECH\t" ++ args) "MECH\t" 5 = 0 :=
    (strncmp_eq_zero_iff_starts_with _ "MECH\t" 5 rfl).mpr hst
  have hp : ptr_add ("MECH\t" ++ args) 5 = args := by
    unfold ptr_add
    rw [String.data_append]
    rfl
  constructor
  · unfold handle_line
    rw [if_neg (strncmp_prefix_disjoint _ "MECH\t" "OK\t" 3 5 (by decide) h4 (by decide)),
      if_neg (strncmp_prefix_disjoint _ "MECH\t" "CONT\t" 5 5 (by decide) h4 (by decide)),
      if_neg (strncmp_prefix_disjoint _ "MECH\t" "FAIL\t" 5 5 (by decide) h4 (by decide)),
      if_pos h4, hp]
  · unfold mech_line_name
    rw [if_pos hst, hp]

/-! ## Lemmas on the connection list -/

theorem unlink_of_not_mem (p : Nat) (l : List Nat) (hp : p ∉ l) : unlink_connection p l = l := by
  induction l with
  | nil => rfl
  | cons a rest ih =>
    have ha : a ≠ p := fun e => hp (by rw [e]; exact List.mem_cons_self _ _)
    have hr : p ∉ rest := fun hm => hp (List.mem_cons_of_mem _ hm)
    simp [unlink_connection, ha, ih hr]

theorem unlink_nodup (p : Nat) (l : List Nat) (hnd : l.Nodup) :
    unlink_connection p l = l.filter (fun q => decide (q ≠ p)) := by
  induction l with
  | nil => rfl
  | cons a rest ih =>
    have hnd2 := List.nodup_cons.mp hnd
    by_cases ha : a = p
    · subst ha
      have hf : rest.filter (fun q => decide (q ≠ a)) = rest := by
        rw [List.filter_eq_self]
        intro q hq
        have hne : q ≠ a := fun e => hnd2.1 (by rw [← e]; exact hq)
        simpa using hne
      have hu : unlink_connection a (a :: rest) = rest := by simp [unlink_connection]
      have hfc : (a :: rest).filter (fun q => decide (q ≠ a)) =
          rest.filter (fun q => decide (q ≠ a)) := by
        rw [List.filter_cons_of_neg]
        simp
      rw [hu, hfc, hf]
    · have hu : unlink_connection p (a :: rest) = a :: unlink_connection p rest := by
        simp [unlink_connection, ha]
      have hfc : (a :: rest).filter (fun q => decide (q ≠ p)) =
          a :: rest.filter (fun q => decide (q ≠ p)) := by
        rw [List.filter_cons_of_pos]
        simpa using ha
      rw [hu, hfc, ih hnd2.2]

theorem destroy_client_connections (p : Nat) (client : auth_client) (hs reconnect : Bool) :
    (destroy_client p client hs reconnect).connections =
      unlink_connection p client.connections := by
  unfold destroy_client auth_client_connect_missing_servers
  simp only []
  split_ifs <;> rfl

theorem put_getElem_ne (w : World) (p q : Nat) (s : auth_client × auth_server_connection)
    (hq : q ≠ p) : (w.put p s).objs[q]? = w.objs[q]? := by
  unfold World.put
  simp only []
  exact List.getElem?_set_ne (fun e => hq e.symm)

/-! ## Lemmas on the waiting-handshake counter -/

theorem done_client_fields (client : auth_client) (conn : auth_server_connection) :
    (auth_client_input_done client conn).1 = true ∧
      (auth_client_input_done client conn).2.1.conn_waiting_handshake_count =
        uint_dec client.conn_waiting_handshake_count ∧
      (auth_client_input_done client conn).2.1.notified =
        (if client.connect_notify_callback &&
            decide (uint_dec client.conn_waiting_handshake_count = 0) then
          client.notified ++ [true]
        else client.notified) := by
  have hf := update_loop_frame
    { client with conn_waiting_handshake_count := uint_dec client.conn_waiting_handshake_count }
    conn.auth_mechs_buf
  unfold auth_client_input_done update_available_auth_mechs auth_client_is_connected
  simp only []
  rw [hf]
  simp only []
  refine ⟨trivial, ?_, ?_⟩
  · split_ifs <;> rfl
  · split_ifs <;> rfl

theorem uint_dec_of_pos (n : Nat) (h1 : 0 < n) (h2 : n < 2 ^ 32) : uint_dec n = n - 1 := by
  unfold uint_dec
  have e : n + (2 ^ 32 - 1) = (n - 1) + 2 ^ 32 := by omega
  rw [e, Nat.add_mod_right, Nat.mod_eq_of_lt (by omega)]

theorem nodup_length_one_iff (l : List Nat) (p : Nat) (hnd : l.Nodup) (hp : p ∈ l) :
    l.length = 1 ↔ ∀ q ∈ l, q = p := by
  constructor
  · intro hlen q hq
    match l, hlen with
    | [x], _ =>
      rw [List.mem_singleton] at hp hq
      rw [hq, hp]
  · intro hall
    cases l with
    | nil => cases hp
    | cons a rest =>
      have hnd2 := List.nodup_cons.mp hnd
      have ha : a = p := hall a (List.mem_cons_self _ _)
      have hrest : rest = [] := by
        cases rest with
        | nil => rfl
        | cons b r =>
          exfalso
          have hb : b = p := hall b (List.mem_cons_of_mem _ (List.mem_cons_self _ _))
          apply hnd2.1
          rw [ha, ← hb]
          exact List.mem_cons_self _ _
      rw [hrest]
      rfl

theorem others_waiting_iff (w : World) (p : Nat) :
    others_waiting w p = true ↔
      ∃ q ∈ w.client.connections.filter (is_waiting w), q ≠ p := by
  unfold others_waiting
  rw [List.any_eq_true]
  constructor
  · rintro ⟨q, hq, hc⟩
    simp only [Bool.and_eq_true, decide_eq_true_eq] at hc
    exact ⟨q, List.mem_filter.mpr ⟨hq, hc.2⟩, hc.1⟩
  · rintro ⟨q, hq, hne⟩
    have hq2 := List.mem_filter.mp hq
    refine ⟨q, hq2.1, ?_⟩
    simp only [Bool.and_eq_true, decide_eq_true_eq]
    exact ⟨hne, hq2.2⟩

theorem waiting_one_iff (w : World) (p : Nat) (conn : auth_server_connection)
    (hconn : w.objs[p]? = some conn) (hs : conn.handshake_received = false)
    (hlink : p ∈ w.client.connections) (hnd : w.client.connections.Nodup) :
    0 < waiting_connections w ∧ (waiting_connections w = 1 ↔ others_waiting w p = false) := by
  have hw : is_waiting w p = true := by
    unfold is_waiting
    simp [hconn, hs]
  have hmem : p ∈ w.client.connections.filter (is_waiting w) := List.mem_filter.mpr ⟨hlink, hw⟩
  have hndf : (w.client.connections.filter (is_waiting w)).Nodup := hnd.filter _
  constructor
  · exact List.length_pos_of_mem hmem
  · unfold waiting_connections
    rw [nodup_length_one_iff _ p hndf hmem]
    constructor
    · intro hall
      cases ho : others_waiting w p with
      | false => rfl
      | true =>
        exfalso
        rcases (others_waiting_iff w p).mp ho with ⟨q, hq, hne⟩
        exact hne (hall q hq)
    · intro ho q hq
      by_contra hne
      have ht := (others_waiting_iff w p).mpr ⟨q, hq, hne⟩
      rw [ho] at ht
      cases ht

/-! ## Lemmas on the lifetime of a connection -/

theorem same_life_refl (c : auth_server_connection) : same_life c c :=
  ⟨rfl, rfl, rfl, rfl, rfl⟩

theorem same_life_trans (a b c : auth_server_connection) (h1 : same_life a b)
    (h2 : same_life b c) : same_life a c := by
  obtain ⟨a1, a2, a3, a4, a5⟩ := h1
  obtain ⟨b1, b2, b3, b4, b5⟩ := h2
  exact ⟨b1.trans a1, b2.trans a2, b3.trans a3, b4.trans a4, b5.trans a5⟩

theorem input_mech_life (conn : auth_server_connection) (args : String) :
    same_life conn (auth_client_input_mech conn args).2 := by
  unfold auth_client_input_mech
  split_ifs
  · exact same_life_refl conn
  · split
    · exact same_life_refl conn
    · simp only []
      split_ifs <;> exact ⟨rfl, rfl, rfl, rfl, rfl⟩

theorem handle_line_life (h : request_handlers) (hf : request_frame h) (client : auth_client)
    (conn : auth_server_connection) (line : String) :
    same_life conn (handle_line h client conn line).2.2 ∧
      (handle_line h client conn line).2.1.connections = client.connections := by
  have hok := fun args => (hf client conn args).1
  have hcont := fun args => (hf client conn args).2.1
  have hfail := fun args => (hf client conn args).2.2
  unfold handle_line
  split_ifs
  · obtain ⟨e1, e2⟩ := hok (ptr_add line 3)
    rw [e1, e2]
    exact ⟨⟨rfl, rfl, rfl, rfl, rfl⟩, rfl⟩
  · obtain ⟨e1, e2⟩ := hcont (ptr_add line 5)
    rw [e1, e2]
    exact ⟨⟨rfl, rfl, rfl, rfl, rfl⟩, rfl⟩
  · obtain ⟨e1, e2⟩ := hfail (ptr_add line 5)
    rw [e1, e2]
    exact ⟨⟨rfl, rfl, rfl, rfl, rfl⟩, rfl⟩
  · exact ⟨input_mech_life conn _, rfl⟩
  · unfold auth_client_input_spid
    split_ifs <;> exact ⟨⟨rfl, rfl, rfl, rfl, rfl⟩, rfl⟩
  · unfold auth_client_input_cuid
    split_ifs <;> exact ⟨⟨rfl, rfl, rfl, rfl, rfl⟩, rfl⟩
  · have hfr := update_loop_frame
      { client with
        conn_waiting_handshake_count := uint_dec client.conn_waiting_handshake_count }
      conn.auth_mechs_buf
    unfold auth_client_input_done update_available_auth_mechs
    simp only []
    rw [hfr]
    refine ⟨⟨rfl, rfl, rfl, rfl, rfl⟩, ?_⟩
    split_ifs <;> rfl
  · exact ⟨same_life_refl conn, rfl⟩

theorem handle_lines_life (h : request_handlers) (hf : request_frame h) (lines : List String)
    (client : auth_client) (conn : auth_server_connection) :
    same_life conn (handle_lines h client conn lines).2 ∧
      (handle_lines h client conn lines).1.connections = client.connections := by
  induction lines generalizing client conn with
  | nil => exact ⟨same_life_refl conn, rfl⟩
  | cons l rest ih =>
    simp only [handle_lines]
    obtain ⟨a1, a2⟩ := handle_line_life h hf client conn l
    obtain ⟨b1, b2⟩ := ih (handle_line h client conn l).2.1 (handle_line h client conn l).2.2
    exact ⟨same_life_trans _ _ _ a1 b1, b2.trans a2⟩

theorem input_loop_accepted (h : request_handlers) (p : Nat) (lines : List String)
    (client : auth_client) (conn : auth_server_connection)
    (hacc : lines_accepted h client conn lines = true) :
    input_loop h p client conn lines = some (handle_lines h client conn lines) := by
  induction lines generalizing client conn with
  | nil => rfl
  | cons l rest ih =>
    simp only [lines_accepted, Bool.and_eq_true] at hacc
    simp only [input_loop, handle_lines, hacc.1]
    simpa using ih _ _ hacc.2

theorem input_loop_cases (h : request_handlers) (p : Nat) (lines : List String)
    (client : auth_client) (conn : auth_server_connection) :
    (lines_accepted h client conn lines = true ∧
        input_loop h p client conn lines = some (handle_lines h client conn lines)) ∨
      ∃ pre lk post, lines = pre ++ lk :: post ∧ lines_accepted h client conn pre = true ∧
        (handle_line h (handle_lines h client conn pre).1
          (handle_lines h client conn pre).2 lk).1 = false ∧
        input_loop h p client conn lines =
          auth_server_connection_destroy p (handle_lines h client conn (pre ++ [lk])).1
            (handle_lines h client conn (pre ++ [lk])).2 false := by
  induction lines generalizing client conn with
  | nil => exact Or.inl ⟨rfl, rfl⟩
  | cons l rest ih =>
    cases hr : (handle_line h client conn l).1 with
    | false =>
      refine Or.inr ⟨[], l, rest, rfl, rfl, ?_, ?_⟩
      · simpa [handle_lines] using hr
      · simp [input_loop, handle_lines, hr]
    | true =>
      rcases ih (handle_line h client conn l).2.1 (handle_line h client conn l).2.2 with
        ⟨ha, hl⟩ | ⟨pre, lk, post, hsplit, hpre, hk, hl⟩
      · refine Or.inl ⟨?_, ?_⟩
        · simp [lines_accepted, hr, ha]
        · simp only [input_loop, handle_lines, hr]
          simpa using hl
      · refine Or.inr ⟨l :: pre, lk, post, ?_, ?_, ?_, ?_⟩
        · rw [hsplit]
          rfl
        · simp [lines_accepted, hr, hpre]
        · simpa [handle_lines] using hk
        · simp only [input_loop, hr, List.cons_append, handle_lines]
          simpa using hl

theorem unlink_mem (p q : Nat) (l : List Nat) (hq : q ∈ unlink_connection p l) : q ∈ l := by
  induction l with
  | nil => cases hq
  | cons a rest ih =>
    unfold unlink_connection at hq
    split_ifs at hq with ha
    · exact List.mem_cons_of_mem _ hq
    · rcases List.mem_cons.mp hq with e | hm
      · rw [e]
        exact List.mem_cons_self _ _
      · exact List.mem_cons_of_mem _ (ih hm)

theorem unlink_nodup_keeps (p : Nat) (l : List Nat) (hnd : l.Nodup) :
    (unlink_connection p l).Nodup ∧ p ∉ unlink_connection p l := by
  rw [unlink_nodup p l hnd]
  refine ⟨hnd.filter _, ?_⟩
  intro hm
  have := (List.mem_filter.mp hm).2
  simp at this

theorem put_lifetime (w : World) (p : Nat) (c c1 : auth_server_connection)
    (client1 : auth_client) (hok : lifetime_ok w) (hc : w.objs[p]? = some c)
    (hcase : (client1.connections = w.client.connections ∧ live c1) ∨
      (client1.connections = unlink_connection p w.client.connections ∧ dead c1)) :
    lifetime_ok (w.put p (client1, c1)) := by
  obtain ⟨hnd, hbound, hobj⟩ := hok
  obtain ⟨hlt, _⟩ := List.getElem?_eq_some.mp hc
  have hsub : ∀ q ∈ client1.connections, q ∈ w.client.connections := by
    intro q hq
    rcases hcase with ⟨e, _⟩ | ⟨e, _⟩
    · rw [e] at hq
      exact hq
    · rw [e] at hq
      exact unlink_mem p q _ hq
  refine ⟨?_, ?_, ?_⟩
  · show client1.connections.Nodup
    rcases hcase with ⟨e, _⟩ | ⟨e, _⟩
    · rw [e]
      exact hnd
    · rw [e]
      exact (unlink_nodup_keeps p _ hnd).1
  · intro q hq
    show q < (w.objs.set p c1).length
    rw [List.length_set]
    exact hbound q (hsub q hq)
  · intro q c2 hq
    have hq2 : (w.objs.set p c1)[q]? = some c2 := hq
    show live c2 ∨ (dead c2 ∧ q ∉ client1.connections)
    by_cases hqp : p = q
    · subst hqp
      rw [List.getElem?_set_self hlt] at hq2
      cases hq2
      rcases hcase with ⟨_, hl⟩ | ⟨e, hd⟩
      · exact Or.inl hl
      · refine Or.inr ⟨hd, ?_⟩
        rw [e]
        exact (unlink_nodup_keeps p _ hnd).2
    · rw [List.getElem?_set_ne hqp] at hq2
      rcases hobj q c2 hq2 with hl | ⟨hd, hnot⟩
      · exact Or.inl hl
      · exact Or.inr ⟨hd, fun hm => hnot (hsub q hm)⟩

theorem closed_then_unref_dead (c : auth_server_connection) (hr : c.refcount = 1)
    (hrel : c.released = 0) : dead (unref_result (closed_connection c)) := by
  unfold unref_result closed_connection auth_server_requests_remove_all
  simp only [hr, if_true]
  exact ⟨rfl, rfl, by simp [hrel], rfl, rfl⟩

theorem destroy_live_dead (p : Nat) (client : auth_client) (c : auth_server_connection)
    (reconnect : Bool) (hl : live c) :
    auth_server_connection_destroy p client c reconnect =
        some (destroy_client p client c.handshake_received reconnect,
          unref_result (closed_connection c)) ∧
      (destroy_client p client c.handshake_received reconnect).connections =
        unlink_connection p client.connections ∧
      dead (unref_result (closed_connection c)) := by
  obtain ⟨hfd, hr, hrel, _⟩ := hl
  exact ⟨destroy_live p client c reconnect hfd (by omega), destroy_client_connections _ _ _ _,
    closed_then_unref_dead c hr hrel⟩

theorem unref_life_two (c : auth_server_connection) (hr : c.refcount = 2) :
    ∃ c1, auth_server_connection_unref c = some c1 ∧ c1.fd = c.fd ∧ c1.refcount = 1 ∧
      c1.released = c.released ∧ c1.io = c.io ∧ c1.ext_input_io = c.ext_input_io := by
  refine ⟨{ c with refcount := 1 }, ?_, rfl, rfl, rfl, rfl, rfl⟩
  unfold auth_server_connection_unref
  simp [hr]

theorem unref_life_one (c : auth_server_connection) (hr : c.refcount = 1) :
    ∃ c1, auth_server_connection_unref c = some c1 ∧ c1.fd = c.fd ∧ c1.refcount = 0 ∧
      c1.released = c.released + 1 ∧ c1.io = c.io ∧ c1.ext_input_io = c.ext_input_io := by
  refine ⟨{ c with refcount := 0, released := c.released + 1 }, ?_, rfl, rfl, rfl, rfl, rfl⟩
  unfold auth_server_connection_unref
  simp [hr]

theorem destroy_life_two (p : Nat) (client : auth_client) (c : auth_server_connection)
    (reconnect : Bool) (hfd : c.fd ≠ -1) (hr : c.refcount = 2) :
    ∃ c1, auth_server_connection_destroy p client c reconnect =
        some (destroy_client p client c.handshake_received reconnect, c1) ∧
      c1.fd = -1 ∧ c1.refcount = 1 ∧ c1.released = c.released ∧ c1.io = false ∧
      c1.ext_input_io = false := by
  have hr2 : (closed_connection c).refcount = 2 := hr
  obtain ⟨c1, hu, e1, e2, e3, e4, e5⟩ := unref_life_two (closed_connection c) hr2
  refine ⟨c1, ?_, e1, e2, e3, e4, e5⟩
  rw [destroy_eq, if_neg hfd, hu]
  rfl

theorem loop_unref_life (h : request_handlers) (hf : request_frame h) (p : Nat)
    (lines : List String) (client : auth_client) (c2 : auth_server_connection)
    (hfd : c2.fd ≠ -1) (hr : c2.refcount = 2) (hrel : c2.released = 0)
    (hreg : (c2.io || c2.ext_input_io) = true) :
    ∃ s c1, input_loop h p client c2 lines = some s ∧
      auth_server_connection_unref s.2 = some c1 ∧
      ((s.1.connections = client.connections ∧ live c1) ∨
        (s.1.connections = unlink_connection p client.connections ∧ dead c1)) := by
  rcases input_loop_cases h p lines client c2 with
    ⟨_, hloop⟩ | ⟨pre, lk, post, _, _, _, hloop⟩
  · obtain ⟨⟨s1, s2, s3, s4, s5⟩, scon⟩ := handle_lines_life h hf lines client c2
    obtain ⟨c1, hu, e1, e2, e3, e4, e5⟩ :=
      unref_life_two (handle_lines h client c2 lines).2 (s2.trans hr)
    refine ⟨_, c1, hloop, hu, Or.inl ⟨scon, ?_, e2, ?_, ?_⟩⟩
    · rw [e1, s1]
      exact hfd
    · rw [e3, s3]
      exact hrel
    · rw [e4, e5, s4, s5]
      exact hreg
  · obtain ⟨⟨s1, s2, s3, s4, s5⟩, scon⟩ := handle_lines_life h hf (pre ++ [lk]) client c2
    have hfd2 : (handle_lines h client c2 (pre ++ [lk])).2.fd ≠ -1 := by
      rw [s1]
      exact hfd
    obtain ⟨d, hd, d1, d2, d3, d4, d5⟩ := destroy_life_two p
      (handle_lines h client c2 (pre ++ [lk])).1 (handle_lines h client c2 (pre ++ [lk])).2
      false hfd2 (s2.trans hr)
    obtain ⟨c1, hu, e1, e2, e3, e4, e5⟩ := unref_life_one d d2
    refine ⟨_, c1, hloop.trans hd, hu, Or.inr ⟨?_, ?_, e2, ?_, ?_, ?_⟩⟩
    · show (destroy_client p _ _ false).connections = _
      rw [destroy_client_connections, scon]
    · rw [e1]
      exact d1
    · rw [e3, d3, s3, hrel]
    · rw [e4]
      exact d4
    · rw [e5]
      exact d5

theorem pass_live (h : request_handlers) (hf : request_frame h) (w : World) (p : Nat)
    (c : auth_server_connection) (read : Int) (lines : List String)
    (hc : w.objs[p]? = some c) (hl : live c) :
    ∃ client1 c1, auth_client_input h w p read lines = some (w.put p (client1, c1)) ∧
      ((client1.connections = w.client.connections ∧ live c1) ∨
        (client1.connections = unlink_connection p w.client.connections ∧ dead c1)) := by
  obtain ⟨hfd, hr, hrel, hreg⟩ := hl
  unfold auth_client_input
  simp only [hc]
  by_cases h0 : read = 0
  · refine ⟨w.client, c, ?_, Or.inl ⟨rfl, hfd, hr, hrel, hreg⟩⟩
    rw [if_pos h0, put_same w p c hc]
  · rw [if_neg h0]
    by_cases h1 : read = -1
    · obtain ⟨e1, e2, e3⟩ := destroy_live_dead p w.client c true ⟨hfd, hr, hrel, hreg⟩
      rw [if_pos h1, e1]
      exact ⟨_, _, rfl, Or.inr ⟨e2, e3⟩⟩
    · rw [if_neg h1]
      by_cases h2 : read = -2
      · obtain ⟨e1, e2, e3⟩ := destroy_live_dead p w.client c false ⟨hfd, hr, hrel, hreg⟩
        rw [if_pos h2, e1]
        exact ⟨_, _, rfl, Or.inr ⟨e2, e3⟩⟩
      · rw [if_neg h2]
        obtain ⟨s, c1, hloop, hu, hcase⟩ := loop_unref_life h hf p lines w.client
          { c with refcount := c.refcount + 1 } hfd (by simp only [hr]; rfl) hrel hreg
        rw [hloop]
        simp only [hu]
        exact ⟨s.1, c1, rfl, hcase⟩

theorem new_connection_live (path : String) (fd : Int) (ext : Bool) (hfd : fd ≠ -1) :
    live (new_connection path fd ext) := by
  refine ⟨hfd, rfl, rfl, ?_⟩
  cases ext <;> rfl

theorem append_lifetime (w : World) (client1 : auth_client) (c1 : auth_server_connection)
    (hok : lifetime_ok w)
    (hcase : (client1.connections = w.objs.length :: w.client.connections ∧ live c1) ∨
      (client1.connections = w.client.connections ∧ dead c1)) :
    lifetime_ok { client := client1, objs := w.objs ++ [c1] } := by
  obtain ⟨hnd, hbound, hobj⟩ := hok
  have hfresh : w.objs.length ∉ w.client.connections :=
    fun hm => absurd (hbound _ hm) (lt_irrefl _)
  refine ⟨?_, ?_, ?_⟩
  · show client1.connections.Nodup
    rcases hcase with ⟨e, _⟩ | ⟨e, _⟩
    · rw [e]
      exact List.nodup_cons.mpr ⟨hfresh, hnd⟩
    · rw [e]
      exact hnd
  · intro q hq
    show q < (w.objs ++ [c1]).length
    rw [List.length_append, List.length_singleton]
    have hq1 : q ∈ client1.connections := hq
    rcases hcase with ⟨e, _⟩ | ⟨e, _⟩
    · rw [e] at hq1
      rcases List.mem_cons.mp hq1 with e2 | hm
      · omega
      · have := hbound q hm
        omega
    · rw [e] at hq1
      have := hbound q hq1
      omega
  · intro q c2 hq
    have hq2 : (w.objs ++ [c1])[q]? = some c2 := hq
    show live c2 ∨ (dead c2 ∧ q ∉ client1.connections)
    by_cases hlt : q < w.objs.length
    · rw [List.getElem?_append_left hlt] at hq2
      rcases hobj q c2 hq2 with hl | ⟨hd, hnot⟩
      · exact Or.inl hl
      · refine Or.inr ⟨hd, ?_⟩
        rcases hcase with ⟨e, _⟩ | ⟨e, _⟩
        · rw [e]
          intro hm
          rcases List.mem_cons.mp hm with e2 | hm2
          · omega
          · exact hnot hm2
        · rw [e]
          exact hnot
    · have hge : w.objs.length ≤ q := by omega
      rw [List.getElem?_append_right hge] at hq2
      have hq0 : q - w.objs.length = 0 := by
        by_contra hne
        have hpos : 1 ≤ q - w.objs.length := by omega
        have : ([c1] : List auth_server_connection)[q - w.objs.length]? = none :=
          List.getElem?_eq_none (by simpa using hpos)
        rw [this] at hq2
        cases hq2
      rw [hq0] at hq2
      have hc2 : c2 = c1 := by
        simp at hq2
        exact hq2.symm
      have hq3 : q = w.objs.length := by omega
      subst hc2
      rcases hcase with ⟨_, hl⟩ | ⟨e, hd⟩
      · exact Or.inl hl
      · refine Or.inr ⟨hd, ?_⟩
        rw [e, hq3]
        exact hfresh

theorem step_lifetime (h : request_handlers) (hf : request_frame h) (w : World) (e : event)
    (hok : lifetime_ok w) : ∃ w1, step h w e = some w1 ∧ lifetime_ok w1 := by
  cases e with
  | connect path fd sent =>
    simp only [step]
    unfold auth_server_connection_new
    by_cases hfd : fd = -1
    · rw [if_pos hfd]
      exact ⟨w, rfl, hok⟩
    · rw [if_neg hfd]
      simp only []
      cases sent with
      | true =>
        simp only [Bool.not_true, Bool.false_eq_true, if_false, Option.map_some']
        exact ⟨_, rfl, append_lifetime w _ _ hok
          (Or.inl ⟨rfl, new_connection_live path fd _ hfd⟩)⟩
      | false =>
        obtain ⟨e1, e2, e3⟩ := destroy_live_dead w.objs.length
          { w.client with
            connections := w.objs.length :: w.client.connections,
            conn_waiting_handshake_count := uint_inc w.client.conn_waiting_handshake_count }
          (new_connection path fd w.client.ext_input_add) true
          (new_connection_live path fd _ hfd)
        simp only [Bool.not_false, if_true, e1, Option.map_some']
        refine ⟨_, rfl, append_lifetime w _ _ hok (Or.inr ⟨?_, e3⟩)⟩
        rw [e2]
        simp [unlink_connection]
  | input p read lines =>
    simp only [step]
    unfold deliver_input
    cases hc : w.objs[p]? with
    | none => exact ⟨w, rfl, hok⟩
    | some c =>
      simp only []
      by_cases hreg : (c.io || c.ext_input_io) = true
      · rw [if_pos hreg]
        rcases hok.2.2 p c hc with hl | ⟨hd, _⟩
        · obtain ⟨client1, c1, hrun, hcase⟩ := pass_live h hf w p c read lines hc hl
          exact ⟨_, hrun, put_lifetime w p c c1 client1 hok hc hcase⟩
        · obtain ⟨_, _, _, d4, d5⟩ := hd
          rw [d4, d5] at hreg
          cases hreg
      · rw [if_neg hreg]
        exact ⟨w, rfl, hok⟩
  | destroy p reconnect =>
    simp only [step]
    unfold destroy_connection
    cases hc : w.objs[p]? with
    | none => exact ⟨w, rfl, hok⟩
    | some c =>
      simp only []
      rcases hok.2.2 p c hc with hl | ⟨hd, _⟩
      · obtain ⟨e1, e2, e3⟩ := destroy_live_dead p w.client c reconnect hl
        rw [e1]
        exact ⟨_, rfl, put_lifetime w p c _ _ hok hc (Or.inr ⟨e2, e3⟩)⟩
      · rw [destroy_eq, if_pos hd.1]
        refine ⟨w, ?_, hok⟩
        simp only [Option.map_some', put_same w p c hc]

theorem run_lifetime (h : request_handlers) (hf : request_frame h) (evs : List event)
    (w : World) (hok : lifetime_ok w) :
    ∃ w1, run_events h w evs = some w1 ∧ lifetime_ok w1 := by
  induction evs generalizing w with
  | nil => exact ⟨w, rfl, hok⟩
  | cons e rest ih =>
    obtain ⟨w1, hs, hok1⟩ := step_lifetime h hf w e hok
    obtain ⟨w2, hr, hok2⟩ := ih w1 hok1
    refine ⟨w2, ?_, hok2⟩
    simp only [run_events, hs]
    exact hr

theorem empty_world_lifetime (client : auth_client) (hc : client.connections = []) :
    lifetime_ok { client := client, objs := [] } := by
  refine ⟨?_, ?_, ?_⟩
  · show client.connections.Nodup
    rw [hc]
    exact List.nodup_nil
  · intro q hq
    have hq1 : q ∈ client.connections := hq
    rw [hc] at hq1
    cases hq1
  · intro p c hp
    have hp1 : ([] : List auth_server_connection)[p]? = some c := hp
    simp at hp1

theorem loop_violation_life (h : request_handlers) (hf : request_frame h) (p : Nat)
    (pre : List String) (lk : String) (post : List String) (client : auth_client)
    (c2 : auth_server_connection) (hfd : c2.fd ≠ -1) (hr : c2.refcount = 2)
    (hpre : lines_accepted h client c2 pre = true)
    (hk : (handle_line h (handle_lines h client c2 pre).1
      (handle_lines h client c2 pre).2 lk).1 = false) :
    ∃ s c1, input_loop h p client c2 (pre ++ lk :: post) = some s ∧
      s.2.fd = -1 ∧ s.2.refcount = 1 ∧ s.2.released = c2.released ∧
      s.1.connections = unlink_connection p client.connections ∧
      auth_server_connection_unref s.2 = some c1 ∧ c1.fd = -1 ∧ c1.refcount = 0 ∧
      c1.released = c2.released + 1 := by
  have hloop := input_loop_first_violation h p pre lk post client c2 hpre hk
  obtain ⟨⟨s1, s2, s3, _, _⟩, scon⟩ := handle_lines_life h hf (pre ++ [lk]) client c2
  have hfd2 : (handle_lines h client c2 (pre ++ [lk])).2.fd ≠ -1 := by
    rw [s1]
    exact hfd
  obtain ⟨d, hd, d1, d2, d3, _, _⟩ := destroy_life_two p
    (handle_lines h client c2 (pre ++ [lk])).1 (handle_lines h client c2 (pre ++ [lk])).2
    false hfd2 (s2.trans hr)
  obtain ⟨c1, hu, e1, e2, e3, _, _⟩ := unref_life_one d d2
  refine ⟨_, c1, hloop.trans hd, d1, d2, d3.trans s3, ?_, hu, e1.trans d1, e2, ?_⟩
  · show (destroy_client p _ _ false).connections = _
    rw [destroy_client_connections, scon]
  · rw [e3, d3, s3]

theorem loop_accepted_life (h : request_handlers) (hf : request_frame h) (p : Nat)
    (lines : List String) (client : auth_client) (c2 : auth_server_connection)
    (hr : c2.refcount = 2) (hacc : lines_accepted h client c2 lines = true) :
    ∃ s c1, input_loop h p client c2 lines = some s ∧
      s.2.fd = c2.fd ∧ s.2.refcount = 2 ∧ s.2.released = c2.released ∧
      s.1.connections = client.connections ∧
      auth_server_connection_unref s.2 = some c1 ∧ c1.fd = c2.fd ∧ c1.refcount = 1 ∧
      c1.released = c2.released := by
  have hloop := input_loop_accepted h p lines client c2 hacc
  obtain ⟨⟨s1, s2, s3, _, _⟩, scon⟩ := handle_lines_life h hf lines client c2
  obtain ⟨c1, hu, e1, e2, e3, _, _⟩ :=
    unref_life_two (handle_lines h client c2 lines).2 (s2.trans hr)
  exact ⟨_, c1, hloop, s1, s2.trans hr, s3, scon, hu, e1.trans s1, e2, e3.trans s3⟩

theorem pass_of_loop (h : request_handlers) (w : World) (p : Nat)
    (c : auth_server_connection) (read : Int) (lines : List String)
    (s : auth_client × auth_server_connection) (c1 : auth_server_connection)
    (hc : w.objs[p]? = some c) (hread : 0 < read)
    (hloop : input_loop h p w.client { c with refcount := c.refcount + 1 } lines = some s)
    (hu : auth_server_connection_unref s.2 = some c1) :
    auth_client_input h w p read lines = some (w.put p (s.1, c1)) := by
  have h0 : ¬ read = 0 := by omega
  have h1 : ¬ read = -1 := by omega
  have h2 : ¬ read = -2 := by omega
  unfold auth_client_input
  simp only [hc, h0, h1, h2, if_false, hloop, hu]

/-! ## Lemmas on the advertised list before `DONE` -/

theorem handle_line_gated (h : request_handlers) (hf : request_frame h) (client : auth_client)
    (conn : auth_server_connection) (line : String) (hg : gated conn) :
    gated (handle_line h client conn line).2.2 := by
  have hok := fun args => (hf client conn args).1
  have hcont := fun args => (hf client conn args).2.1
  have hfail := fun args => (hf client conn args).2.2
  unfold handle_line
  split_ifs
  · rw [(hok (ptr_add line 3)).2]
    exact hg
  · rw [(hcont (ptr_add line 5)).2]
    exact hg
  · rw [(hfail (ptr_add line 5)).2]
    exact hg
  · unfold auth_client_input_mech
    split_ifs
    · exact hg
    · split
      · exact hg
      · simp only []
        split_ifs <;> exact hg
  · unfold auth_client_input_spid
    split_ifs <;> exact hg
  · unfold auth_client_input_cuid
    split_ifs <;> exact hg
  · intro hs
    simp [auth_client_input_done] at hs
  · exact hg

theorem unref_gated (c c1 : auth_server_connection)
    (hu : auth_server_connection_unref c = some c1) (hg : gated c) : gated c1 := by
  unfold auth_server_connection_unref at hu
  simp only [] at hu
  split_ifs at hu <;> cases hu <;> exact hg

theorem destroy_gated (p : Nat) (client : auth_client) (conn : auth_server_connection)
    (reconnect : Bool) (s : auth_client × auth_server_connection)
    (hd : auth_server_connection_destroy p client conn reconnect = some s) (hg : gated conn) :
    gated s.2 := by
  rw [destroy_eq] at hd
  split_ifs at hd with hfd
  · cases hd
    exact hg
  · rcases Option.map_eq_some'.mp hd with ⟨c3, hu, hs⟩
    subst hs
    exact unref_gated (closed_connection conn) c3 hu hg

theorem input_loop_gated (h : request_handlers) (hf : request_frame h) (p : Nat)
    (lines : List String) (client : auth_client) (conn : auth_server_connection)
    (s : auth_client × auth_server_connection)
    (hrun : input_loop h p client conn lines = some s) (hg : gated conn) : gated s.2 := by
  induction lines generalizing client conn with
  | nil =>
    simp only [input_loop] at hrun
    cases hrun
    exact hg
  | cons l rest ih =>
    have hg1 := handle_line_gated h hf client conn l hg
    simp only [input_loop] at hrun
    cases hr : (handle_line h client conn l).1 with
    | false =>
      simp only [hr] at hrun
      exact destroy_gated _ _ _ _ _ hrun hg1
    | true =>
      simp only [hr] at hrun
      exact ih _ _ hrun hg1

theorem put_gated (w : World) (p : Nat) (s : auth_client × auth_server_connection)
    (hall : all_gated w) (hg : gated s.2) : all_gated (w.put p s) := by
  intro q c hq
  have hq2 : (w.objs.set p s.2)[q]? = some c := hq
  rw [List.getElem?_set] at hq2
  split_ifs at hq2 with hpq hlt
  · cases hq2
    exact hg
  · exact hall q c hq2

theorem pass_gated (h : request_handlers) (hf : request_frame h) (w w1 : World) (p : Nat)
    (read : Int) (lines : List String) (hall : all_gated w)
    (hrun : auth_client_input h w p read lines = some w1) : all_gated w1 := by
  unfold auth_client_input at hrun
  cases hc : w.objs[p]? with
  | none => simp [hc] at hrun
  | some c =>
    have hgc := hall p c hc
    simp only [hc] at hrun
    split_ifs at hrun
    · cases hrun
      exact hall
    · rcases Option.map_eq_some'.mp hrun with ⟨s, hs, hw⟩
      subst hw
      exact put_gated w p s hall (destroy_gated _ _ _ _ _ hs hgc)
    · rcases Option.map_eq_some'.mp hrun with ⟨s, hs, hw⟩
      subst hw
      exact put_gated w p s hall (destroy_gated _ _ _ _ _ hs hgc)
    · cases hloop : input_loop h p w.client { c with refcount := c.refcount + 1 } lines with
      | none => simp [hloop] at hrun
      | some s =>
        have hgs := input_loop_gated h hf p lines _ _ s hloop hgc
        simp only [hloop] at hrun
        cases hu : auth_server_connection_unref s.2 with
        | none => simp [hu] at hrun
        | some c2 =>
          simp only [hu] at hrun
          cases hrun
          exact put_gated w p (s.1, c2) hall (unref_gated _ _ hu hgs)

theorem append_gated (w : World) (client1 : auth_client) (c1 : auth_server_connection)
    (hall : all_gated w) (hg : gated c1) :
    all_gated { client := client1, objs := w.objs ++ [c1] } := by
  intro q c hq
  have hq2 : (w.objs ++ [c1])[q]? = some c := hq
  by_cases hlt : q < w.objs.length
  · rw [List.getElem?_append_left hlt] at hq2
    exact hall q c hq2
  · rw [List.getElem?_append_right (by omega)] at hq2
    by_cases hq0 : q - w.objs.length = 0
    · rw [hq0] at hq2
      simp at hq2
      rw [← hq2]
      exact hg
    · have hnone : ([c1] : List auth_server_connection)[q - w.objs.length]? = none :=
        List.getElem?_eq_none (by simp; omega)
      rw [hnone] at hq2
      cases hq2

theorem step_gated (h : request_handlers) (hf : request_frame h) (w w1 : World) (e : event)
    (hall : all_gated w) (hs : step h w e = some w1) : all_gated w1 := by
  cases e with
  | connect path fd sent =>
    simp only [step] at hs
    rcases Option.map_eq_some'.mp hs with ⟨r, hr, hw⟩
    subst hw
    unfold auth_server_connection_new at hr
    have hnew : gated (new_connection path fd w.client.ext_input_add) := fun _ => rfl
    split_ifs at hr
    · cases hr
      exact hall
    · simp only [] at hr
      split at hr
      · cases hr
      · rename_i s hd
        cases hr
        exact append_gated w _ _ hall (destroy_gated _ _ _ _ _ hd hnew)
    · cases hr
      exact append_gated w _ _ hall hnew
  | input p read lines =>
    simp only [step] at hs
    unfold deliver_input at hs
    cases hc : w.objs[p]? with
    | none =>
      simp only [hc] at hs
      cases hs
      exact hall
    | some c =>
      simp only [hc] at hs
      split_ifs at hs
      · exact pass_gated h hf w w1 p read lines hall hs
      · cases hs
        exact hall
  | destroy p reconnect =>
    simp only [step] at hs
    unfold destroy_connection at hs
    cases hc : w.objs[p]? with
    | none =>
      simp only [hc] at hs
      cases hs
      exact hall
    | some c =>
      simp only [hc] at hs
      rcases Option.map_eq_some'.mp hs with ⟨s, hd, hw⟩
      subst hw
      exact put_gated w p s hall (destroy_gated _ _ _ _ _ hd (hall p c hc))

theorem run_gated (h : request_handlers) (hf : request_frame h) (evs : List event)
    (w w1 : World) (hall : all_gated w) (hrun : run_events h w evs = some w1) :
    all_gated w1 := by
  induction evs generalizing w with
  | nil =>
    simp only [run_events] at hrun
    cases hrun
    exact hall
  | cons e rest ih =>
    simp only [run_events] at hrun
    cases hs : step h w e with
    | none => simp [hs] at hrun
    | some w2 =>
      simp only [hs] at hrun
      exact ih w2 (step_gated h hf w w2 e hall hs) hrun

theorem offers_needs_handshake (w : World) (p : Nat) (name : String) (hall : all_gated w)
    (ho : offers_mech w p name) : ∃ c, w.objs[p]? = some c ∧ c.handshake_received = true := by
  obtain ⟨c, hc, m, hm, _⟩ := ho
  refine ⟨c, hc, ?_⟩
  cases hs : c.handshake_received with
  | true => rfl
  | false =>
    have he := hall p c hc hs
    rw [he] at hm
    cases hm

/-- With an accurate waiting-handshake counter, `DONE` on a linked connection in
the handshake phase fires the notification exactly when no other linked
connection is still in the handshake phase. -/
theorem done_notifies_of_accurate_counter (h : request_handlers) (w : World) (p : Nat)
    (conn : auth_server_connection)
    (hconn : w.objs[p]? = some conn) (hs : conn.handshake_received = false)
    (hlink : p ∈ w.client.connections) (hnd : w.client.connections.Nodup)
    (hcb : w.client.connect_notify_callback = true)
    (hacc : w.client.conn_waiting_handshake_count = waiting_connections w)
    (hrange : w.client.conn_waiting_handshake_count < 2 ^ 32) :
    (handle_line h w.client conn "DONE").1 = true ∧
      (handle_line h w.client conn "DONE").2.1.notified =
        (if others_waiting w p then w.client.notified else w.client.notified ++ [true]) ∧
      ((handle_line h w.client conn "DONE").2.1.conn_waiting_handshake_count = 0 ↔
        others_waiting w p = false) := by
  obtain ⟨hpos, hone⟩ := waiting_one_iff w p conn hconn hs hlink hnd
  obtain ⟨d1, d2, d3⟩ := done_client_fields w.client conn
  have hdec : uint_dec w.client.conn_waiting_handshake_count =
      w.client.conn_waiting_handshake_count - 1 :=
    uint_dec_of_pos _ (by rw [hacc]; exact hpos) hrange
  have hzero : uint_dec w.client.conn_waiting_handshake_count = 0 ↔
      others_waiting w p = false := by
    rw [hdec, ← hone, hacc]
    omega
  rw [handle_line_done, d2, d3, hcb]
  refine ⟨d1, ?_, hzero⟩
  cases ho : others_waiting w p with
  | false =>
    have hz := hzero.mpr ho
    simp [hz]
  | true =>
    have hz : ¬ uint_dec w.client.conn_waiting_handshake_count = 0 := by
      intro h0
      have := hzero.mp h0
      rw [ho] at this
      cases this
    simp [hz]

/-! ## The claims -/

/-- C1: on a connection whose handshake is not complete, the `MECH` handler given
the non-empty argument string `name TAB tok1 TAB ... TAB tokn` (fields without
tabs) returns TRUE and appends exactly one descriptor at the end of the
mechanism buffer: its name is the first field and its flags are the bitwise OR of
the flags of those tokens that are one of the seven capability words. The
descriptors already buffered stay in front, unchanged and in order; apart from
the buffer only the has-plain flag can change, to true when the name is PLAIN. -/
theorem C1_mech_line_appends_descriptor (conn : auth_server_connection) (name : String)
    (toks : List String) (hs : conn.handshake_received = false)
    (hname : '\t' ∉ name.data) (htoks : ∀ t ∈ toks, '\t' ∉ t.data)
    (hne : mech_args name toks ≠ "") :
    auth_client_input_mech conn (mech_args name toks) =
      (true, { conn with
          has_plain_mech := conn.has_plain_mech || decide (name = "PLAIN"),
          auth_mechs_buf :=
            conn.auth_mechs_buf ++
              [{ name := name,
                 flags := ((toks.filterMap token_flag).foldr (fun f acc => f ||| acc) 0) }] }) := by
  unfold auth_client_input_mech
  rw [t_strsplit_mech_args name toks hname htoks hne]
  simp only [hs, mech_flags_loop_eq, strcmp_eq_zero_iff]
  by_cases hp : name = "PLAIN" <;> simp [hp, hs, flags_of_tokens]

/-- Witness of C1: a `LOGIN` line with two capability words and an unknown token. -/
theorem C1_mech_line_appends_descriptor_witness :
    auth_client_input_mech (new_connection "auth-master" 5 false)
        (mech_args "LOGIN" ["plaintext", "x-future", "private"]) =
      (true, { new_connection "auth-master" 5 false with
          has_plain_mech := false || decide ("LOGIN" = "PLAIN"),
          auth_mechs_buf :=
            [] ++ [{ name := "LOGIN",
                     flags := ((["plaintext", "x-future", "private"].filterMap
                       token_flag).foldr (fun f acc => f ||| acc) 0) }] }) :=
  C1_mech_line_appends_descriptor (new_connection "auth-master" 5 false) "LOGIN"
    ["plaintext", "x-future", "private"] (by decide) (by decide) (by decide) (by decide)

/-- C2: tokens that are not exactly one of the seven capability words never alter
what a `MECH` line decodes to. For every non-empty argument string
`name TAB l1 TAB l2`, inserting unrecognized tokens `us` at any position after the
name (and, read backwards, deleting them) gives the same result of the handler,
descriptor name and flags included, and both lines are accepted. -/
theorem C2_unrecognized_tokens_ignored (conn : auth_server_connection) (name : String)
    (l1 us l2 : List String) (hs : conn.handshake_received = false)
    (hname : '\t' ∉ name.data) (h1 : ∀ t ∈ l1, '\t' ∉ t.data)
    (hus : ∀ u ∈ us, '\t' ∉ u.data) (h2 : ∀ t ∈ l2, '\t' ∉ t.data)
    (hu : ∀ u ∈ us, u ∉ capability_words)
    (hne : mech_args name (l1 ++ l2) ≠ "") :
    auth_client_input_mech conn (mech_args name (l1 ++ us ++ l2)) =
        auth_client_input_mech conn (mech_args name (l1 ++ l2)) ∧
      (auth_client_input_mech conn (mech_args name (l1 ++ l2))).1 = true ∧
      (auth_client_input_mech conn (mech_args name (l1 ++ us ++ l2))).1 = true := by
  have hne2 : mech_args name (l1 ++ us ++ l2) ≠ "" := by
    intro h0
    apply hne
    rcases (mech_args_eq_empty_iff name _).mp h0 with ⟨hn, hl⟩
    have hl1 : l1 = [] := by
      cases l1 with
      | nil => rfl
      | cons a l => simp at hl
    have hl2 : l2 = [] := by
      cases l2 with
      | nil => rfl
      | cons a l => simp at hl
    subst hn hl1 hl2
    rfl
  have ht : ∀ t ∈ l1 ++ l2, '\t' ∉ t.data := by
    intro t ht
    rcases List.mem_append.mp ht with h | h
    · exact h1 t h
    · exact h2 t h
  have ht2 : ∀ t ∈ l1 ++ us ++ l2, '\t' ∉ t.data := by
    intro t ht
    rcases List.mem_append.mp ht with h | h
    · rcases List.mem_append.mp h with h | h
      · exact h1 t h
      · exact hus t h
    · exact h2 t h
  have hf : flags_of_tokens (l1 ++ us ++ l2) = flags_of_tokens (l1 ++ l2) := by
    rw [flags_of_tokens_append, flags_of_tokens_append, flags_of_tokens_append,
      flags_of_tokens_unrecognized us hu]
    simp
  rw [auth_client_input_mech_args conn name _ hs hname ht hne,
    auth_client_input_mech_args conn name _ hs hname ht2 hne2, hf]
  exact ⟨rfl, rfl, rfl⟩

/-- Witness of C2: an upper-case word, an empty token and an unknown word are
inserted between `plaintext` and `private`. -/
theorem C2_unrecognized_tokens_ignored_witness :
    auth_client_input_mech (new_connection "auth-master" 5 false)
          (mech_args "LOGIN" (["plaintext"] ++ ["PRIVATE", "", "x-future"] ++ ["private"])) =
        auth_client_input_mech (new_connection "auth-master" 5 false)
          (mech_args "LOGIN" (["plaintext"] ++ ["private"])) ∧
      (auth_client_input_mech (new_connection "auth-master" 5 false)
          (mech_args "LOGIN" (["plaintext"] ++ ["private"]))).1 = true ∧
      (auth_client_input_mech (new_connection "auth-master" 5 false)
          (mech_args "LOGIN" (["plaintext"] ++ ["PRIVATE", "", "x-future"] ++ ["private"]))).1
        = true :=
  C2_unrecognized_tokens_ignored (new_connection "auth-master" 5 false) "LOGIN"
    ["plaintext"] ["PRIVATE", "", "x-future"] ["private"]
    (by decide) (by decide) (by decide) (by decide) (by decide) (by decide) (by decide)

/-- C3 as amended: for every sequence of processing passes over the connections
of one client whose lines are handshake lines (`MECH`, `DONE`, or any line that
is not a request result), starting from a global table without a repeated name:
the global table never has two entries with the same name, and looking a name up
in it gives the first descriptor of that name in the initial table followed by
the lists the connections published with `DONE`, in the order in which the
`DONE` lines are handled. So the flags kept for a name are those of the first
connection whose `DONE` publishes that name, whichever connection was the first
to send a `MECH` line for it. -/
theorem C3_global_table_first_advertisement_wins (h : request_handlers) (w w1 : World)
    (passes : List pass)
    (hl : ∀ e ∈ passes, ∀ l ∈ e.lines, ¬ is_request_line l)
    (hnd : (mech_names w.client.available_auth_mechs).Nodup)
    (hrun : run_passes h w passes = some w1) :
    (mech_names w1.client.available_auth_mechs).Nodup ∧
      ∀ name, auth_client_find_mech w1.client name =
        first_with_name
          (w.client.available_auth_mechs ++ (run_published h w passes).flatten) name := by
  have hm := run_merges h passes hl w w1 hrun
  exact ⟨hm.1 hnd, hm.2⟩

/-- Witness of C3 as amended: two connections advertise the same two names with
different flags; the table keeps the flags of the connection whose `DONE` came
first. -/
theorem C3_global_table_first_advertisement_wins_witness :
    run_passes idle_handlers two_connections handshake_race = some after_handshake_race ∧
      run_published idle_handlers two_connections handshake_race = [mechs_b, mechs_a] ∧
      after_handshake_race.client.available_auth_mechs = mechs_b ∧
      (mech_names after_handshake_race.client.available_auth_mechs).Nodup ∧
      ∀ name, auth_client_find_mech after_handshake_race.client name =
        first_with_name
          (two_connections.client.available_auth_mechs ++
            (run_published idle_handlers two_connections handshake_race).flatten) name :=
  ⟨by decide, by decide, rfl,
    C3_global_table_first_advertisement_wins idle_handlers two_connections after_handshake_race
      handshake_race (by decide) (by decide) (by decide)⟩

/-- C3 fails on the code: in `handshake_race` the first `MECH` line that names
`PLAIN` arrives on `auth-a` (pointer 0) and is accepted with the plaintext flag,
before any line of `auth-b`; but `auth-b` is the first to send `DONE`, so the
global table keeps `PLAIN` with the flags of `auth-b`, which are 0, and not the
flags of the first connection to advertise the name. -/
theorem C3_first_mech_line_does_not_win :
    (lines_in_arrival_order handshake_race).find?
        (fun cl => decide (mech_line_name cl.2 = some "PLAIN")) =
      some (0, "MECH\tPLAIN\tplaintext") ∧
    handle_line idle_handlers two_connections.client (new_connection "auth-a" 5 false)
        "MECH\tPLAIN\tplaintext" =
      (true, two_connections.client,
        { new_connection "auth-a" 5 false with
          auth_mechs_buf := [{ name := "PLAIN", flags := MECH_SEC_PLAINTEXT }],
          has_plain_mech := true }) ∧
    run_passes idle_handlers two_connections handshake_race = some after_handshake_race ∧
    auth_client_find_mech after_handshake_race.client "PLAIN" =
      some { name := "PLAIN", flags := 0 } ∧
    ¬ ((auth_client_find_mech after_handshake_race.client "PLAIN").map (fun m => m.flags) =
      some MECH_SEC_PLAINTEXT) := by
  decide

/-- C4: whenever `auth_server_connection_find_mech` returns no connection, the
error it reports is "Unsupported authentication mechanism" exactly when the name
is absent from the client's global table, and is "Authentication server isn't
connected, try again later.." exactly when the name is in the global table and
no connection of the client's list advertises it. -/
theorem C4_find_mech_error_distinguishes (w : World) (name e : String)
    (hret : auth_server_connection_find_mech w name = Except.error e) :
    (e = "Unsupported authentication mechanism" ↔
        name ∉ mech_names w.client.available_auth_mechs) ∧
      (e = "Authentication server isn't connected, try again later.." ↔
        (name ∈ mech_names w.client.available_auth_mechs ∧
          ∀ q ∈ w.client.connections, ¬ offers_mech w q name)) := by
  unfold auth_server_connection_find_mech at hret
  cases hloop : find_mech_loop w.objs name w.client.connections with
  | some p => simp [hloop] at hret
  | none =>
    have hno := (find_mech_loop_eq_none_iff w name _).mp hloop
    simp only [hloop] at hret
    by_cases hf : (auth_client_find_mech w.client name).isNone = true
    · have hab := (find_mech_none_iff w.client name).mp hf
      rw [if_pos hf] at hret
      cases hret
      refine ⟨⟨fun _ => hab, fun _ => rfl⟩, ⟨fun h0 => absurd h0 (by decide), ?_⟩⟩
      rintro ⟨hin, _⟩
      exact absurd hin hab
    · have hin : name ∈ mech_names w.client.available_auth_mechs := by
        by_contra hab
        exact hf ((find_mech_none_iff w.client name).mpr hab)
      rw [if_neg hf] at hret
      cases hret
      refine ⟨⟨fun h0 => absurd h0 (by decide), fun hab => absurd hin hab⟩, ?_⟩
      exact ⟨fun _ => ⟨hin, hno⟩, fun _ => rfl⟩

/-- Witness of C4: after both backends are gone `PLAIN` is still known globally,
so the lookup reports the retry error and not the unsupported one. -/
theorem C4_find_mech_error_distinguishes_witness :
    run_passes idle_handlers after_handshake_race
        [{ conn := 1, read := -1, lines := [] }, { conn := 0, read := -1, lines := [] }] =
        some backends_lost ∧
      auth_server_connection_find_mech backends_lost "PLAIN" =
        Except.error "Authentication server isn't connected, try again later.." ∧
      auth_server_connection_find_mech backends_lost "CRAM-MD5" =
        Except.error "Unsupported authentication mechanism" ∧
      ("Authentication server isn't connected, try again later.." =
          "Unsupported authentication mechanism" ↔
        "PLAIN" ∉ mech_names backends_lost.client.available_auth_mechs) ∧
      ("Authentication server isn't connected, try again later.." =
          "Authentication server isn't connected, try again later.." ↔
        ("PLAIN" ∈ mech_names backends_lost.client.available_auth_mechs ∧
          ∀ q ∈ backends_lost.client.connections, ¬ offers_mech backends_lost q "PLAIN")) :=
  ⟨by decide, rfl, rfl,
    C4_find_mech_error_distinguishes backends_lost "PLAIN"
      "Authentication server isn't connected, try again later.." rfl⟩

/-- C5: `auth_server_connection_find_mech` returns the connection `p` exactly
when `p` is the first connection of the client's list, in list order, whose
advertised list has a mechanism with the requested name ignoring ASCII case; it
returns a connection exactly when some connection of the list has one. -/
theorem C5_find_mech_first_offering (w : World) (name : String) :
    (∀ p, auth_server_connection_find_mech w name = Except.ok p ↔
        ∃ l1 l2, w.client.connections = l1 ++ p :: l2 ∧ offers_mech w p name ∧
          ∀ q ∈ l1, ¬ offers_mech w q name) ∧
      ((∃ p, auth_server_connection_find_mech w name = Except.ok p) ↔
        ∃ q ∈ w.client.connections, offers_mech w q name) := by
  have hok : ∀ p, auth_server_connection_find_mech w name = Except.ok p ↔
      find_mech_loop w.objs name w.client.connections = some p := by
    intro p
    unfold auth_server_connection_find_mech
    cases hloop : find_mech_loop w.objs name w.client.connections with
    | some q => simp
    | none =>
      simp only []
      split_ifs <;> simp
  constructor
  · intro p
    rw [hok p, find_mech_loop_eq_some_iff]
  · constructor
    · rintro ⟨p, hp⟩
      rcases (find_mech_loop_eq_some_iff w name _ p).mp ((hok p).mp hp) with ⟨l1, l2, hl, ho, _⟩
      exact ⟨p, by rw [hl]; simp, ho⟩
    · rintro ⟨q, hq, ho⟩
      cases hloop : find_mech_loop w.objs name w.client.connections with
      | some p => exact ⟨p, (hok p).mpr hloop⟩
      | none => exact absurd ho ((find_mech_loop_eq_none_iff w name _).mp hloop q hq)

/-- C6: on a connection whose handshake has completed, the handlers of `MECH`,
`SPID` and `CUID` return FALSE and leave the connection as it was (server pid,
connection-unique-id, mechanism buffer, advertised list and has-plain flag
included), whatever the arguments; and the dispatch of `auth_client_input` sends
every line with one of these three prefixes to such a handler, so the line gives
`ret = FALSE` with client and connection unchanged. -/
theorem C6_handshake_line_rejected_when_ready (conn : auth_server_connection)
    (hs : conn.handshake_received = true) :
    (∀ args, auth_client_input_mech conn args = (false, conn)) ∧
      (∀ args, auth_client_input_spid conn args = (false, conn)) ∧
      (∀ args, auth_client_input_cuid conn args = (false, conn)) ∧
      ∀ (h : request_handlers) (client : auth_client) (line : String),
        (strncmp line "MECH\t" 5 = 0 ∨ strncmp line "SPID\t" 5 = 0 ∨
          strncmp line "CUID\t" 5 = 0) →
        handle_line h client conn line = (false, client, conn) := by
  have hmech : ∀ args, auth_client_input_mech conn args = (false, conn) := by
    intro args
    simp [auth_client_input_mech, hs]
  have hspid : ∀ args, auth_client_input_spid conn args = (false, conn) := by
    intro args
    simp [auth_client_input_spid, hs]
  have hcuid : ∀ args, auth_client_input_cuid conn args = (false, conn) := by
    intro args
    simp [auth_client_input_cuid, hs]
  refine ⟨hmech, hspid, hcuid, ?_⟩
  intro h client line hline
  unfold handle_line
  rcases hline with hl | hl | hl
  · rw [if_neg (strncmp_prefix_disjoint line "MECH\t" "OK\t" 3 5 (by decide) hl (by decide)),
      if_neg (strncmp_prefix_disjoint line "MECH\t" "CONT\t" 5 5 (by decide) hl (by decide)),
      if_neg (strncmp_prefix_disjoint line "MECH\t" "FAIL\t" 5 5 (by decide) hl (by decide)),
      if_pos hl, hmech]
  · rw [if_neg (strncmp_prefix_disjoint line "SPID\t" "OK\t" 3 5 (by decide) hl (by decide)),
      if_neg (strncmp_prefix_disjoint line "SPID\t" "CONT\t" 5 5 (by decide) hl (by decide)),
      if_neg (strncmp_prefix_disjoint line "SPID\t" "FAIL\t" 5 5 (by decide) hl (by decide)),
      if_neg (strncmp_prefix_disjoint line "SPID\t" "MECH\t" 5 5 (by decide) hl (by decide)),
      if_pos hl, hspid]
  · rw [if_neg (strncmp_prefix_disjoint line "CUID\t" "OK\t" 3 5 (by decide) hl (by decide)),
      if_neg (strncmp_prefix_disjoint line "CUID\t" "CONT\t" 5 5 (by decide) hl (by decide)),
      if_neg (strncmp_prefix_disjoint line "CUID\t" "FAIL\t" 5 5 (by decide) hl (by decide)),
      if_neg (strncmp_prefix_disjoint line "CUID\t" "MECH\t" 5 5 (by decide) hl (by decide)),
      if_neg (strncmp_prefix_disjoint line "CUID\t" "SPID\t" 5 5 (by decide) hl (by decide)),
      if_pos hl, hcuid]

/-- Witness of C6: the connection `auth-b` after its `DONE`. -/
theorem C6_handshake_line_rejected_when_ready_witness :
    (∀ args, auth_client_input_mech ready_connection args = (false, ready_connection)) ∧
      (∀ args, auth_client_input_spid ready_connection args = (false, ready_connection)) ∧
      (∀ args, auth_client_input_cuid ready_connection args = (false, ready_connection)) ∧
      ∀ (h : request_handlers) (client : auth_client) (line : String),
        (strncmp line "MECH\t" 5 = 0 ∨ strncmp line "SPID\t" 5 = 0 ∨
          strncmp line "CUID\t" 5 = 0) →
        handle_line h client ready_connection line = (false, client, ready_connection) :=
  C6_handshake_line_rejected_when_ready ready_connection (by decide)

/-- C7, the code at the failing input: `auth_client_input_done` tests nothing, so
for every client and connection, handshake already received or not, it returns
TRUE and decrements the waiting-handshake counter. With two connections in the
handshake phase, the lines `DONE`, `DONE` on `auth-b` alone are both accepted:
the connection stays linked and open, the counter goes from 2 to 0 and the
notification fires with status connected, while `auth-a` has not completed its
handshake. -/
theorem C7_second_done_is_accepted :
    (∀ client conn,
        (auth_client_input_done client conn).1 = true ∧
          (auth_client_input_done client conn).2.1.conn_waiting_handshake_count =
            uint_dec client.conn_waiting_handshake_count) ∧
      auth_client_input idle_handlers two_connections 1 5 ["DONE"] =
        some { client :=
                 { two_connections.client with conn_waiting_handshake_count := 1 }
               objs :=
                 [new_connection "auth-a" 5 false,
                  { new_connection "auth-b" 6 false with handshake_received := true }] } ∧
      auth_client_input idle_handlers two_connections 1 10 ["DONE", "DONE"] =
        some { client :=
                 { two_connections.client with
                   conn_waiting_handshake_count := 0, notified := [true] }
               objs :=
                 [new_connection "auth-a" 5 false,
                  { new_connection "auth-b" 6 false with handshake_received := true }] } := by
  refine ⟨?_, by decide, by decide⟩
  intro client conn
  have hf := update_loop_frame
    { client with conn_waiting_handshake_count := uint_dec client.conn_waiting_handshake_count }
    conn.auth_mechs_buf
  unfold auth_client_input_done update_available_auth_mechs
  simp only []
  constructor
  · trivial
  · rw [hf]
    split_ifs <;> rfl

/-- C8 fails on the code: on a freshly opened connection a second `SPID` line
before `DONE` is accepted and replaces the stored server pid, and likewise for
`CUID`. After the pass `SPID 1`, `SPID 2`, `CUID 3`, `CUID 4` the connection is
still linked and open, with server pid 2 and connection-unique-id 4. -/
theorem C8_second_spid_overwrites :
    (auth_client_input_spid (new_connection "auth-b" 6 false) "1").2.server_pid = 1 ∧
      auth_client_input_spid (auth_client_input_spid (new_connection "auth-b" 6 false) "1").2 "2" =
        (true, { new_connection "auth-b" 6 false with server_pid := 2 }) ∧
      ¬ ((auth_client_input_spid
            (auth_client_input_spid (new_connection "auth-b" 6 false) "1").2 "1").1 = false) ∧
      auth_client_input idle_handlers two_connections 1 28
          ["SPID\t1", "SPID\t2", "CUID\t3", "CUID\t4"] =
        some { client := two_connections.client
               objs :=
                 [new_connection "auth-a" 5 false,
                  { new_connection "auth-b" 6 false with server_pid := 2, connect_uid := 4 }] } := by
  decide

/-- C8 as amended: while the handshake is not complete every `SPID` line is
accepted and the stored server pid becomes the value of that line, so of two
lines before `DONE` the second one wins and nothing else of the connection
changes; the same holds for `CUID` and the connection-unique-id. The two values
are protected only once `DONE` has been handled: a further `SPID` or `CUID` line
is then rejected and leaves the connection, with the values of the last lines
before `DONE`, unchanged. -/
theorem C8_spid_cuid_last_line_wins (client : auth_client) (conn : auth_server_connection)
    (first second third : String) (hs : conn.handshake_received = false) :
    auth_client_input_spid (auth_client_input_spid conn first).2 second =
        (true, { conn with server_pid := to_uint (strtoul second) }) ∧
      auth_client_input_cuid (auth_client_input_cuid conn first).2 second =
        (true, { conn with connect_uid := to_uint (strtoul second) }) ∧
      (auth_client_input_done client
          (auth_client_input_spid (auth_client_input_spid conn first).2 second).2).2.2.server_pid
        = to_uint (strtoul second) ∧
      auth_client_input_spid (auth_client_input_done client
          (auth_client_input_spid (auth_client_input_spid conn first).2 second).2).2.2 third =
        (false, (auth_client_input_done client
          (auth_client_input_spid (auth_client_input_spid conn first).2 second).2).2.2) ∧
      (auth_client_input_done client
          (auth_client_input_cuid (auth_client_input_cuid conn first).2 second).2).2.2.connect_uid
        = to_uint (strtoul second) ∧
      auth_client_input_cuid (auth_client_input_done client
          (auth_client_input_cuid (auth_client_input_cuid conn first).2 second).2).2.2 third =
        (false, (auth_client_input_done client
          (auth_client_input_cuid (auth_client_input_cuid conn first).2 second).2).2.2) := by
  simp [auth_client_input_spid, auth_client_input_cuid, auth_client_input_done, hs]

/-- Witness of C8 as amended: `SPID 1`, `SPID 2`, `DONE`, `SPID 3` (and the same
with `CUID`) on a connection of `two_connections`: the value 2 is stored, the
line after `DONE` is rejected. -/
theorem C8_spid_cuid_last_line_wins_witness :
    (auth_client_input_done two_connections.client
        (auth_client_input_spid
          (auth_client_input_spid (new_connection "auth-b" 6 false) "1").2 "2").2).2.2.server_pid
      = 2 ∧
    (auth_client_input_spid (auth_client_input_done two_connections.client
        (auth_client_input_spid
          (auth_client_input_spid (new_connection "auth-b" 6 false) "1").2 "2").2).2.2 "3").1
      = false ∧
    (auth_client_input_done two_connections.client
        (auth_client_input_cuid
          (auth_client_input_cuid (new_connection "auth-b" 6 false) "1").2 "2").2).2.2.connect_uid
      = 2 :=
  have hw := C8_spid_cuid_last_line_wins two_connections.client
    (new_connection "auth-b" 6 false) "1" "2" "3" (by decide)
  ⟨hw.2.2.1.trans (by decide), congrArg Prod.fst hw.2.2.2.1, hw.2.2.2.2.1.trans (by decide)⟩

/-- C9: in one pass of `auth_client_input` over the buffered lines
`pre ++ lk :: post`, where every line of `pre` is accepted and `lk` is the first
line whose handler reports a violation, the result is: the pass's reference is
taken, the handlers are applied in arrival order to the lines of `pre` and then
to `lk`, the connection is destroyed with reconnect not requested, and the
pass's reference is dropped. No line of `post` is handled (the result does not
depend on `post`), and no reconnect is requested by the pass. -/
theorem C9_pass_stops_at_first_violation (h : request_handlers) (w : World) (p : Nat)
    (conn : auth_server_connection) (read : Int) (pre : List String) (lk : String)
    (post : List String)
    (hconn : w.objs[p]? = some conn) (hread : 0 < read)
    (hpre : lines_accepted h w.client { conn with refcount := conn.refcount + 1 } pre = true)
    (hk : (handle_line h
        (handle_lines h w.client { conn with refcount := conn.refcount + 1 } pre).1
        (handle_lines h w.client { conn with refcount := conn.refcount + 1 } pre).2 lk).1
      = false) :
    auth_client_input h w p read (pre ++ lk :: post) =
        (auth_server_connection_destroy p
          (handle_lines h w.client { conn with refcount := conn.refcount + 1 } (pre ++ [lk])).1
          (handle_lines h w.client { conn with refcount := conn.refcount + 1 } (pre ++ [lk])).2
          false).bind
          (fun d => (auth_server_connection_unref d.2).map (fun c => w.put p (d.1, c))) ∧
      ∀ w1, auth_client_input h w p read (pre ++ lk :: post) = some w1 →
        w1.client.reconnects =
          (handle_lines h w.client { conn with refcount := conn.refcount + 1 }
            (pre ++ [lk])).1.reconnects := by
  have hloop := input_loop_first_violation h p pre lk post w.client
    { conn with refcount := conn.refcount + 1 } hpre hk
  have h0 : ¬ read = 0 := by omega
  have h1 : ¬ read = -1 := by omega
  have h2 : ¬ read = -2 := by omega
  have hmain : auth_client_input h w p read (pre ++ lk :: post) =
      (auth_server_connection_destroy p
        (handle_lines h w.client { conn with refcount := conn.refcount + 1 } (pre ++ [lk])).1
        (handle_lines h w.client { conn with refcount := conn.refcount + 1 } (pre ++ [lk])).2
        false).bind
        (fun d => (auth_server_connection_unref d.2).map (fun c => w.put p (d.1, c))) := by
    unfold auth_client_input
    simp only [hconn, h0, h1, h2, if_false, hloop]
    cases hd : auth_server_connection_destroy p
        (handle_lines h w.client { conn with refcount := conn.refcount + 1 } (pre ++ [lk])).1
        (handle_lines h w.client { conn with refcount := conn.refcount + 1 } (pre ++ [lk])).2
        false with
    | none => rfl
    | some d =>
      simp only [Option.some_bind]
      cases hu : auth_server_connection_unref d.2 with
      | none => rfl
      | some c => rfl
  refine ⟨hmain, ?_⟩
  intro w1 hw1
  rw [hmain] at hw1
  rcases Option.bind_eq_some.mp hw1 with ⟨d, hd, hrest⟩
  rcases Option.map_eq_some'.mp hrest with ⟨c, _, hw⟩
  subst hw
  exact destroy_no_reconnect _ _ _ _ hd

/-- Witness of C9: a `MECH` line arrives after `DONE`. The connection is
destroyed, no reconnect is requested, and the `SPID` and `DONE` lines buffered
behind the `MECH` line are not handled. -/
theorem C9_pass_stops_at_first_violation_witness :
    auth_client_input idle_handlers two_connections 1 40
        (["MECH\tPLAIN", "DONE"] ++ "MECH\tLOGIN" :: ["SPID\t9", "DONE"]) =
      some after_mech_after_done ∧
    after_mech_after_done.client.reconnects = 0 :=
  ⟨(C9_pass_stops_at_first_violation idle_handlers two_connections 1
      (new_connection "auth-b" 6 false) 40 ["MECH\tPLAIN", "DONE"] "MECH\tLOGIN"
      ["SPID\t9", "DONE"] (by decide) (by decide) (by decide) (by decide)).1.trans (by decide),
    by decide⟩

/-- C10: a client with a registered notification target, no connection and an
empty global table opens one connection (the socket connects and the `CPID` line
is sent). One pass over the lines `SPID 42`, `CUID 7`, `MECH PLAIN`,
`MECH LOGIN plaintext`, `DONE` then leaves the connection linked, open and with
its single reference, handshake received, server pid 42, connection-unique-id 7
and advertised list [PLAIN without flags, LOGIN with only the plaintext flag];
the global table has exactly these two entries, the waiting-handshake counter is
zero and the notification was fired exactly once, with status connected. -/
theorem C10_handshake_scenario (h : request_handlers) (pid : Nat) (path : String) (fd : Int)
    (ext : Bool) (read : Int) (hfd : fd ≠ -1) (hread : 0 < read) :
    auth_server_connection_new { client := empty_client pid true ext, objs := [] } path fd true =
        some ({ client :=
                  { empty_client pid true ext with
                    connections := [0], conn_waiting_handshake_count := 1 }
                objs := [new_connection path fd ext] }, some 0) ∧
      auth_client_input h
          { client :=
              { empty_client pid true ext with
                connections := [0], conn_waiting_handshake_count := 1 }
            objs := [new_connection path fd ext] } 0 read handshake_lines =
        some { client :=
                 { empty_client pid true ext with
                   connections := [0], conn_waiting_handshake_count := 0,
                   available_auth_mechs := handshake_mechs, notified := [true] }
               objs :=
                 [{ new_connection path fd ext with
                    server_pid := 42, connect_uid := 7,
                    auth_mechs_buf := handshake_mechs, available_auth_mechs := handshake_mechs,
                    handshake_received := true, has_plain_mech := true }] } := by
  have h0 : ¬ read = 0 := by omega
  have h1 : ¬ read = -1 := by omega
  have h2 : ¬ read = -2 := by omega
  have hs : t_strsplit "PLAIN" "\t" = ["PLAIN"] := by decide
  have hl : t_strsplit "LOGIN\tplaintext" "\t" = ["LOGIN", "plaintext"] := by decide
  have hf : mech_flags_loop 0 ["plaintext"] = MECH_SEC_PLAINTEXT := by decide
  have hf0 : mech_flags_loop 0 [] = 0 := rfl
  have hp : to_uint (strtoul "42") = 42 := by decide
  have hc : to_uint (strtoul "7") = 7 := by decide
  have hd : uint_dec 1 = 0 := by decide
  have hi : uint_inc 0 = 1 := by decide
  have hpl : strcmp "PLAIN" "PLAIN" = 0 := by decide
  have hlg : ¬ strcmp "LOGIN" "PLAIN" = 0 := by decide
  constructor
  · simp [auth_server_connection_new, hfd, empty_client, hi]
  · simp [auth_client_input, h0, h1, h2, handshake_lines, input_loop, handle_line_spid_42,
      handle_line_cuid_7, handle_line_mech_plain, handle_line_mech_login, handle_line_done,
      auth_client_input_spid, auth_client_input_cuid, auth_client_input_mech,
      auth_client_input_done, update_available_auth_mechs, update_available_auth_mechs_loop,
      auth_client_find_mech, auth_client_is_connected, auth_server_connection_unref,
      new_connection, empty_client, World.put, handshake_mechs, hs, hl, hf, hp, hc, hd, hpl,
      hlg, hf0]

/-- Witness of C10: client pid 100, socket 5 at `auth-a`, a read of 43 bytes. -/
theorem C10_handshake_scenario_witness :
    auth_server_connection_new { client := empty_client 100 true false, objs := [] }
          "auth-a" 5 true =
        some ({ client :=
                  { empty_client 100 true false with
                    connections := [0], conn_waiting_handshake_count := 1 }
                objs := [new_connection "auth-a" 5 false] }, some 0) ∧
      auth_client_input idle_handlers
          { client :=
              { empty_client 100 true false with
                connections := [0], conn_waiting_handshake_count := 1 }
            objs := [new_connection "auth-a" 5 false] } 0 43 handshake_lines =
        some { client :=
                 { empty_client 100 true false with
                   connections := [0], conn_waiting_handshake_count := 0,
                   available_auth_mechs := handshake_mechs, notified := [true] }
               objs :=
                 [{ new_connection "auth-a" 5 false with
                    server_pid := 42, connect_uid := 7,
                    auth_mechs_buf := handshake_mechs, available_auth_mechs := handshake_mechs,
                    handshake_received := true, has_plain_mech := true }] } :=
  C10_handshake_scenario idle_handlers 100 "auth-a" 5 false 43 (by decide) (by decide)

/-- C11: the value `i_stream_read` returns decides the pass before any line is
looked at. For 0 the world is left as it is; for -1 (end of stream) the pass is
`auth_server_connection_destroy(conn, TRUE)` and nothing else; for -2 (buffer
full) it is `auth_server_connection_destroy(conn, FALSE)` and nothing else. In
all three cases the result does not depend on the buffered lines or on the
handlers. On a live connection the teardown after -1 requests one reconnect and
calls no notification, and the teardown after -2 requests no reconnect. -/
theorem C11_read_result_decides_pass (h : request_handlers) (w : World) (p : Nat)
    (conn : auth_server_connection) (lines : List String)
    (hconn : w.objs[p]? = some conn) :
    auth_client_input h w p 0 lines = some w ∧
      auth_client_input h w p (-1) lines =
        (auth_server_connection_destroy p w.client conn true).map (w.put p) ∧
      auth_client_input h w p (-2) lines =
        (auth_server_connection_destroy p w.client conn false).map (w.put p) ∧
      (conn.fd ≠ -1 → 0 < conn.refcount →
        auth_client_input h w p (-1) lines =
            some (w.put p (destroy_client p w.client conn.handshake_received true,
              unref_result (closed_connection conn))) ∧
          (destroy_client p w.client conn.handshake_received true).reconnects =
            w.client.reconnects + 1 ∧
          (destroy_client p w.client conn.handshake_received true).notified =
            w.client.notified ∧
          auth_client_input h w p (-2) lines =
            some (w.put p (destroy_client p w.client conn.handshake_received false,
              unref_result (closed_connection conn))) ∧
          (destroy_client p w.client conn.handshake_received false).reconnects =
            w.client.reconnects) := by
  have e0 : auth_client_input h w p 0 lines = some w := by
    simp [auth_client_input, hconn]
  have e1 : auth_client_input h w p (-1) lines =
      (auth_server_connection_destroy p w.client conn true).map (w.put p) := by
    simp [auth_client_input, hconn]
  have e2 : auth_client_input h w p (-2) lines =
      (auth_server_connection_destroy p w.client conn false).map (w.put p) := by
    simp [auth_client_input, hconn]
  refine ⟨e0, e1, e2, ?_⟩
  intro hfd hpos
  rw [e1, e2, destroy_live p w.client conn true hfd hpos,
    destroy_live p w.client conn false hfd hpos]
  exact ⟨rfl, (destroy_client_reconnect _ _ _).1, (destroy_client_reconnect _ _ _).2, rfl,
    destroy_client_no_reconnect _ _ _⟩

/-- Witness of C11: the three read results on the connection `auth-b` of
`two_connections`, with lines in the buffer that are never handled. -/
theorem C11_read_result_decides_pass_witness :
    auth_client_input idle_handlers two_connections 1 0 ["DONE", "MECH\tPLAIN"] =
        some two_connections ∧
      auth_client_input idle_handlers two_connections 1 (-1) ["DONE", "MECH\tPLAIN"] =
        some { client :=
                 { two_connections.client with
                   connections := [0], conn_waiting_handshake_count := 1, reconnects := 1 }
               objs :=
                 [new_connection "auth-a" 5 false,
                  { new_connection "auth-b" (-1) false with
                    refcount := 0, io := false, input_closed := true, output_closed := true,
                    released := 1 }] } ∧
      auth_client_input idle_handlers two_connections 1 (-2) ["DONE", "MECH\tPLAIN"] =
        some { client :=
                 { two_connections.client with
                   connections := [0], conn_waiting_handshake_count := 1,
                   notified := [false] }
               objs :=
                 [new_connection "auth-a" 5 false,
                  { new_connection "auth-b" (-1) false with
                    refcount := 0, io := false, input_closed := true, output_closed := true,
                    released := 1 }] } :=
  have hw := C11_read_result_decides_pass idle_handlers two_connections 1
    (new_connection "auth-b" 6 false) ["DONE", "MECH\tPLAIN"] (by decide)
  ⟨hw.1, hw.2.1.trans (by decide), hw.2.2.1.trans (by decide)⟩

/-- C12: `auth_server_connection_destroy` on a connection whose socket handle is
already -1 returns at once, for either value of `reconnect`: client (connection
list, waiting-handshake counter, notifications, reconnects) and connection
(reference count included) are exactly what they were. Every successful destroy
leaves the handle at -1, so a second destroy, with any `reconnect`, leaves the
state of the first. -/
theorem C12_destroy_idempotent (p : Nat) (client : auth_client) (conn : auth_server_connection)
    (hfd : conn.fd = -1) :
    (∀ reconnect, auth_server_connection_destroy p client conn reconnect = some (client, conn)) ∧
      ∀ (q : Nat) (client0 : auth_client) (conn0 : auth_server_connection)
        (first second : Bool) (s : auth_client × auth_server_connection),
        auth_server_connection_destroy q client0 conn0 first = some s →
          auth_server_connection_destroy q s.1 s.2 second = some s := by
  constructor
  · intro reconnect
    rw [destroy_eq, if_pos hfd]
  · intro q client0 conn0 first second s hd
    rw [destroy_eq, if_pos (destroy_result_fd _ _ _ _ _ hd)]

/-- Witness of C12: the connection `auth-b` of `backends_lost`, torn down before. -/
theorem C12_destroy_idempotent_witness :
    (∀ reconnect,
        auth_server_connection_destroy 1 backends_lost.client
            { new_connection "auth-b" (-1) false with
              refcount := 0, io := false, input_closed := true, output_closed := true,
              auth_mechs_buf := mechs_b, available_auth_mechs := mechs_b,
              handshake_received := true, has_plain_mech := true, released := 1 } reconnect =
          some (backends_lost.client,
            { new_connection "auth-b" (-1) false with
              refcount := 0, io := false, input_closed := true, output_closed := true,
              auth_mechs_buf := mechs_b, available_auth_mechs := mechs_b,
              handshake_received := true, has_plain_mech := true, released := 1 })) ∧
      auth_server_connection_destroy 1
          (destroy_client 1 two_connections.client false true)
          (unref_result (closed_connection (new_connection "auth-b" 6 false))) false =
        some (destroy_client 1 two_connections.client false true,
          unref_result (closed_connection (new_connection "auth-b" 6 false))) :=
  have hw := C12_destroy_idempotent 1 backends_lost.client
    { new_connection "auth-b" (-1) false with
      refcount := 0, io := false, input_closed := true, output_closed := true,
      auth_mechs_buf := mechs_b, available_auth_mechs := mechs_b,
      handshake_received := true, has_plain_mech := true, released := 1 } (by decide)
  ⟨hw.1, hw.2 1 two_connections.client (new_connection "auth-b" 6 false) true false
    (destroy_client 1 two_connections.client false true,
      unref_result (closed_connection (new_connection "auth-b" 6 false))) (by decide)⟩

/-- C14: a line that is not exactly `DONE` and starts with none of the prefixes
`OK TAB`, `CONT TAB`, `FAIL TAB`, `MECH TAB`, `SPID TAB`, `CUID TAB` is ignored:
its dispatch gives `ret = TRUE` with client and connection unchanged, so the
connection is not destroyed; a pass over lines that contain it gives the result
of the pass over the same lines without it, so the lines behind it are handled
as if it were not there; and a pass over that line alone leaves the world as it
is. -/
theorem C14_unknown_line_ignored (h : request_handlers) (line : String)
    (hunk : is_unknown_line line) :
    (∀ client conn, handle_line h client conn line = (true, client, conn)) ∧
      (∀ w p read l1 l2,
        auth_client_input h w p read (l1 ++ line :: l2) =
          auth_client_input h w p read (l1 ++ l2)) ∧
      ∀ (w : World) (p : Nat) (conn : auth_server_connection) (read : Int),
        w.objs[p]? = some conn → 0 < read → 0 < conn.refcount →
          auth_client_input h w p read [line] = some w := by
  refine ⟨fun client conn => handle_line_unknown h client conn line hunk, ?_, ?_⟩
  · intro w p read l1 l2
    unfold auth_client_input
    cases hc : w.objs[p]? with
    | none => rfl
    | some conn =>
      simp only [input_loop_skip_unknown h p line hunk l1 l2]
  · intro w p conn read hconn hread hpos
    have h0 : ¬ read = 0 := by omega
    have h1 : ¬ read = -1 := by omega
    have h2 : ¬ read = -2 := by omega
    have hu : auth_server_connection_unref { conn with refcount := conn.refcount + 1 } =
        some conn := by
      rw [unref_of_pos _ (by simp only []; omega)]
      unfold unref_result
      have hne : ¬ conn.refcount + 1 = 1 := by omega
      simp [hne]
    unfold auth_client_input
    simp only [hconn, h0, h1, h2, if_false, input_loop,
      handle_line_unknown h _ _ line hunk, Bool.not_true, Bool.false_eq_true, hu]
    exact congrArg some (put_same w p conn hconn)

/-- Witness of C14: `DONE` followed by arguments; `MECH` without a tab and a
lower-case `done` are unknown lines too. -/
theorem C14_unknown_line_ignored_witness :
    is_unknown_line "MECH" ∧ is_unknown_line "done" ∧ is_unknown_line "DONE\tnow" ∧
      (∀ client conn,
        handle_line idle_handlers client conn "DONE\tnow" = (true, client, conn)) ∧
      (∀ w p read l1 l2,
        auth_client_input idle_handlers w p read (l1 ++ "DONE\tnow" :: l2) =
          auth_client_input idle_handlers w p read (l1 ++ l2)) ∧
      ∀ (w : World) (p : Nat) (conn : auth_server_connection) (read : Int),
        w.objs[p]? = some conn → 0 < read → 0 < conn.refcount →
          auth_client_input idle_handlers w p read ["DONE\tnow"] = some w :=
  ⟨by decide, by decide, by decide,
    C14_unknown_line_ignored idle_handlers "DONE\tnow" (by decide)⟩

/-- C15: `auth_server_connection_find_path` returns the connection `p` exactly
when `p` is the first connection of the client's list, in list order, whose path
equals the given path byte for byte, and it returns no connection exactly when no
connection of the list has that path. (Being a function of the world to a
pointer, it changes nothing.) -/
theorem C15_find_path_first_match (w : World) (path : String) :
    (∀ p, auth_server_connection_find_path w path = some p ↔
        ∃ l1 l2, w.client.connections = l1 ++ p :: l2 ∧ has_path w p path ∧
          ∀ q ∈ l1, ¬ has_path w q path) ∧
      (auth_server_connection_find_path w path = none ↔
        ∀ q ∈ w.client.connections, ¬ has_path w q path) :=
  ⟨fun p => find_path_eq_some_iff w path p, find_path_eq_none_iff w path⟩

/-- C18: with request handlers that work on the pending-request table only,
(a) an accepted `MECH` line `MECH TAB name TAB tok1 ...` leaves the has-plain
flag at its old value or-ed with "name is exactly PLAIN", whatever the tokens;
(b) for every line whatsoever the flag after the line is the old flag or-ed with
"the line is an accepted MECH line whose name is exactly PLAIN", so no other line
sets it and no line clears it; (c) after any sequence of lines the flag is the
initial flag or-ed with "some accepted MECH line of the sequence had the name
PLAIN", which on a new connection (flag false) is the flag itself; (d) tearing
the connection down does not change the flag. -/
theorem C18_has_plain_flag (h : request_handlers) (hf : request_frame h) :
    (∀ (client : auth_client) (conn : auth_server_connection) (name : String)
        (toks : List String),
        conn.handshake_received = false → '\t' ∉ name.data → (∀ t ∈ toks, '\t' ∉ t.data) →
        mech_args name toks ≠ "" →
          (handle_line h client conn ("MECH\t" ++ mech_args name toks)).1 = true ∧
            (handle_line h client conn ("MECH\t" ++ mech_args name toks)).2.2.has_plain_mech =
              (conn.has_plain_mech || decide (name = "PLAIN")) ∧
            mech_line_name ("MECH\t" ++ mech_args name toks) = some name) ∧
      (∀ (client : auth_client) (conn : auth_server_connection) (line : String),
        (handle_line h client conn line).2.2.has_plain_mech =
          (conn.has_plain_mech ||
            ((handle_line h client conn line).1 &&
              decide (mech_line_name line = some "PLAIN")))) ∧
      (∀ (client : auth_client) (conn : auth_server_connection) (lines : List String),
        (handle_lines h client conn lines).2.has_plain_mech =
          (conn.has_plain_mech || plain_accepted h client conn lines)) ∧
      ∀ (p : Nat) (client : auth_client) (conn : auth_server_connection) (reconnect : Bool)
        (s : auth_client × auth_server_connection),
        auth_server_connection_destroy p client conn reconnect = some s →
          s.2.has_plain_mech = conn.has_plain_mech := by
  refine ⟨?_, handle_line_plain h hf, fun client conn lines =>
    handle_lines_plain h hf lines client conn, destroy_plain⟩
  intro client conn name toks hs hname htoks hne
  obtain ⟨e1, e2⟩ := mech_line_of_args h client conn (mech_args name toks)
  rw [e1, e2, auth_client_input_mech_args conn name toks hs hname htoks hne,
    t_strsplit_mech_args name toks hname htoks hne]
  exact ⟨rfl, rfl, rfl⟩

/-- Witness of C18: on a new connection the names `plain` and `Plain` leave the
flag false, whatever follows; the name `PLAIN` sets it, and it stays set. -/
theorem C18_has_plain_flag_witness :
    (handle_lines idle_handlers two_connections.client (new_connection "auth-b" 6 false)
        ["MECH\tplain", "MECH\tPlain\tplaintext", "CUID\t3", "DONE", "MECH\tPLAIN"]).2.has_plain_mech
      = false ∧
    (handle_lines idle_handlers two_connections.client (new_connection "auth-b" 6 false)
        ["MECH\tplain", "MECH\tPLAIN\tprivate", "CUID\t3", "DONE", "OK\t1"]).2.has_plain_mech
      = true :=
  have hw := (C18_has_plain_flag idle_handlers idle_handlers_frame).2.2.1
  ⟨(hw two_connections.client (new_connection "auth-b" 6 false)
      ["MECH\tplain", "MECH\tPlain\tplaintext", "CUID\t3", "DONE", "MECH\tPLAIN"]).trans
      (by decide),
    (hw two_connections.client (new_connection "auth-b" 6 false)
      ["MECH\tplain", "MECH\tPLAIN\tprivate", "CUID\t3", "DONE", "OK\t1"]).trans (by decide)⟩

/-- C20: `auth_server_connection_destroy` on a live connection `p` (socket open,
a reference held) of a client whose list has no connection twice succeeds, for
either value of `reconnect`, and the client's list afterwards is the old list
without `p`: every other connection is still there, in the same order. Every
other connection object is unchanged, and so is the global mechanism table. -/
theorem C20_destroy_removes_only_that_connection (w : World) (p : Nat)
    (conn : auth_server_connection) (reconnect : Bool)
    (hconn : w.objs[p]? = some conn) (hfd : conn.fd ≠ -1) (hpos : 0 < conn.refcount)
    (hnd : w.client.connections.Nodup) :
    ∃ w1, destroy_connection w p reconnect = some w1 ∧
      w1.client.connections = w.client.connections.filter (fun q => decide (q ≠ p)) ∧
      (∀ q, q ≠ p → w1.objs[q]? = w.objs[q]?) ∧
      w1.objs.length = w.objs.length ∧
      w1.client.available_auth_mechs = w.client.available_auth_mechs := by
  refine ⟨w.put p (destroy_client p w.client conn.handshake_received reconnect,
    unref_result (closed_connection conn)), ?_, ?_, ?_, ?_, ?_⟩
  · unfold destroy_connection
    simp only [hconn, destroy_live p w.client conn reconnect hfd hpos, Option.map_some']
  · simp only [World.put, destroy_client_connections]
    exact unlink_nodup p _ hnd
  · intro q hq
    exact put_getElem_ne w p q _ hq
  · simp [World.put]
  · simp only [World.put, destroy_client_table]

/-- Witness of C20: destroying `auth-b` in `after_handshake_race` leaves `auth-a`
linked and untouched and the table with the two names learned from `auth-b`. -/
theorem C20_destroy_removes_only_that_connection_witness :
    destroy_connection after_handshake_race 1 false =
        some { client :=
                 { after_handshake_race.client with
                   connections := [0], notified := [true, true] }
               objs :=
                 [ { new_connection "auth-a" 5 false with
                     auth_mechs_buf := mechs_a, available_auth_mechs := mechs_a,
                     handshake_received := true, has_plain_mech := true },
                   { new_connection "auth-b" (-1) false with
                     refcount := 0, io := false, input_closed := true, output_closed := true,
                     auth_mechs_buf := mechs_b, available_auth_mechs := mechs_b,
                     handshake_received := true, has_plain_mech := true, released := 1 } ] } ∧
      ∃ w1, destroy_connection after_handshake_race 1 false = some w1 ∧
        w1.client.connections =
          after_handshake_race.client.connections.filter (fun q => decide (q ≠ 1)) ∧
        (∀ q, q ≠ 1 → w1.objs[q]? = after_handshake_race.objs[q]?) ∧
        w1.objs.length = after_handshake_race.objs.length ∧
        w1.client.available_auth_mechs = after_handshake_race.client.available_auth_mechs :=
  ⟨by decide,
    C20_destroy_removes_only_that_connection after_handshake_race 1
      { new_connection "auth-b" 6 false with
        auth_mechs_buf := mechs_b, available_auth_mechs := mechs_b,
        handshake_received := true, has_plain_mech := true } false
      (by decide) (by decide) (by decide) (by decide)⟩

/-- C13, the code at the failing input: `DONE` on a connection that has already
completed its handshake is accepted and decrements the counter although no
connection leaves the handshake phase. In `two_connections` the counter is 2 and
two linked connections are in the handshake phase. After one `DONE` on `auth-b`
both numbers are 1. After the pass `DONE`, `DONE` on `auth-b` the counter is 0
while one linked connection, `auth-a`, is still in the handshake phase. -/
theorem C13_repeated_done_breaks_counter :
    (∀ (client : auth_client) (conn : auth_server_connection),
        conn.handshake_received = true →
          (auth_client_input_done client conn).1 = true ∧
            (auth_client_input_done client conn).2.2.handshake_received = true ∧
            (auth_client_input_done client conn).2.1.conn_waiting_handshake_count =
              uint_dec client.conn_waiting_handshake_count ∧
            (auth_client_input_done client conn).2.1.connections = client.connections) ∧
      (two_connections.client.conn_waiting_handshake_count,
        waiting_connections two_connections) = (2, 2) ∧
      (auth_client_input idle_handlers two_connections 1 5 ["DONE"]).map
          (fun w => (w.client.conn_waiting_handshake_count, waiting_connections w)) =
        some (1, 1) ∧
      (auth_client_input idle_handlers two_connections 1 10 ["DONE", "DONE"]).map
          (fun w => (w.client.conn_waiting_handshake_count, waiting_connections w)) =
        some (0, 1) := by
  refine ⟨?_, by decide, by decide, by decide⟩
  intro client conn _
  obtain ⟨d1, d2, _⟩ := done_client_fields client conn
  have hfr := update_loop_frame
    { client with conn_waiting_handshake_count := uint_dec client.conn_waiting_handshake_count }
    conn.auth_mechs_buf
  refine ⟨d1, rfl, d2, ?_⟩
  unfold auth_client_input_done update_available_auth_mechs
  simp only []
  rw [hfr]
  split_ifs <;> rfl

/-- C16, the code at the failing input: the pass `DONE`, `DONE` on `auth-c`
leaves `three_connections` with counter 1 while `auth-a` and `auth-b` are both in
the handshake phase. The next line is the first `DONE` of `auth-b`, a linked
connection in the handshake phase: it is accepted, the counter reaches zero and
the notification fires with status connected, while `auth-a` is still linked and
has not completed its handshake. -/
theorem C16_done_fires_while_another_handshakes :
    auth_client_input idle_handlers three_connections 2 10 ["DONE", "DONE"] =
        some after_repeated_done ∧
      after_repeated_done.objs[1]? = some (new_connection "auth-b" 6 false) ∧
      after_repeated_done.client.connect_notify_callback = true ∧
      others_waiting after_repeated_done 1 = true ∧
      (handle_line idle_handlers after_repeated_done.client
          (new_connection "auth-b" 6 false) "DONE").1 = true ∧
      (handle_line idle_handlers after_repeated_done.client
          (new_connection "auth-b" 6 false) "DONE").2.1.notified = [true] ∧
      (auth_client_input idle_handlers after_repeated_done 1 5 ["DONE"]).map
          (fun w => (w.client.conn_waiting_handshake_count, w.client.notified,
            w.client.connections, is_waiting w 0)) =
        some (0, [true], [2, 1, 0], true) := by
  decide

/-- C17: with request handlers that work on the pending-request table only, take
a world in which every connection object is either live (socket open, one
reference, nothing released) or dead (socket closed, no reference, released
once, unlinked), as it is for connections created by
`auth_server_connection_new`. (i) Every sequence of opens, processing passes and
destroy calls runs through and ends in such a world: no reference count is
negative, no connection is released more than once, a connection is released
exactly when its count is 0, and then its socket is closed and it is unlinked.
(ii) When a line of a pass on a live connection is the first to be rejected, the
count goes 1, 2 (pass reference), 1 (destroy, nothing released yet, socket closed
and connection unlinked), 0 (end of the pass, released). (iii) A pass whose
lines are all accepted has count 2 inside the loop and leaves the count, the
socket and the release count as they were. -/
theorem C17_refcount_and_release (h : request_handlers) (hf : request_frame h) (w : World)
    (evs : List event) (hok : lifetime_ok w) :
    (∃ w1, run_events h w evs = some w1 ∧ lifetime_ok w1 ∧
        ∀ (p : Nat) (c : auth_server_connection), w1.objs[p]? = some c →
          0 ≤ c.refcount ∧ c.released ≤ 1 ∧ (c.released = 1 ↔ c.refcount = 0) ∧
            (c.released = 1 → c.fd = -1 ∧ p ∉ w1.client.connections)) ∧
      (∀ (p : Nat) (c : auth_server_connection) (read : Int) (pre : List String)
        (lk : String) (post : List String),
        w.objs[p]? = some c → live c → 0 < read →
        lines_accepted h w.client { c with refcount := c.refcount + 1 } pre = true →
        (handle_line h (handle_lines h w.client { c with refcount := c.refcount + 1 } pre).1
          (handle_lines h w.client { c with refcount := c.refcount + 1 } pre).2 lk).1 = false →
        ∃ s c1,
          input_loop h p w.client { c with refcount := c.refcount + 1 } (pre ++ lk :: post) =
              some s ∧
            c.refcount + 1 = 2 ∧ s.2.refcount = 1 ∧ s.2.released = 0 ∧ s.2.fd = -1 ∧
            s.1.connections = unlink_connection p w.client.connections ∧
            auth_server_connection_unref s.2 = some c1 ∧ c1.refcount = 0 ∧ c1.released = 1 ∧
            auth_client_input h w p read (pre ++ lk :: post) = some (w.put p (s.1, c1))) ∧
      ∀ (p : Nat) (c : auth_server_connection) (read : Int) (lines : List String),
        w.objs[p]? = some c → live c → 0 < read →
        lines_accepted h w.client { c with refcount := c.refcount + 1 } lines = true →
        ∃ s c1,
          input_loop h p w.client { c with refcount := c.refcount + 1 } lines = some s ∧
            s.2.refcount = 2 ∧ s.1.connections = w.client.connections ∧
            auth_server_connection_unref s.2 = some c1 ∧ c1.refcount = c.refcount ∧
            c1.released = c.released ∧ c1.fd = c.fd ∧
            auth_client_input h w p read lines = some (w.put p (s.1, c1)) := by
  refine ⟨?_, ?_, ?_⟩
  · obtain ⟨w1, hrun, hok1⟩ := run_lifetime h hf evs w hok
    refine ⟨w1, hrun, hok1, ?_⟩
    intro p c hc
    rcases hok1.2.2 p c hc with ⟨_, l2, l3, _⟩ | ⟨⟨d1, d2, d3, _, _⟩, hnot⟩
    · refine ⟨by omega, by omega, ⟨fun h1 => by omega, fun h0 => by omega⟩, fun h1 => by omega⟩
    · exact ⟨by omega, by omega, ⟨fun _ => d2, fun _ => d3⟩, fun _ => ⟨d1, hnot⟩⟩
  · intro p c read pre lk post hc hl hread hpre hk
    obtain ⟨hfd, hr, hrel, _⟩ := hl
    have hr2 : ({ c with refcount := c.refcount + 1 } : auth_server_connection).refcount = 2 := by
      simp only [hr]
      rfl
    obtain ⟨s, c1, hloop, e1, e2, e3, e4, hu, _, e6, e7⟩ :=
      loop_violation_life h hf p pre lk post w.client
        { c with refcount := c.refcount + 1 } hfd hr2 hpre hk
    refine ⟨s, c1, hloop, hr2, e2, e3.trans hrel, e1, e4, hu, e6, ?_,
      pass_of_loop h w p c read _ s c1 hc hread hloop hu⟩
    rw [e7]
    simp only [hrel]
  · intro p c read lines hc hl hread hacc
    obtain ⟨_, hr, _, _⟩ := hl
    have hr2 : ({ c with refcount := c.refcount + 1 } : auth_server_connection).refcount = 2 := by
      simp only [hr]
      rfl
    obtain ⟨s, c1, hloop, _, e2, _, e4, hu, e5, e6, e7⟩ :=
      loop_accepted_life h hf p lines w.client
        { c with refcount := c.refcount + 1 } hr2 hacc
    exact ⟨s, c1, hloop, e2, e4, hu, e6.trans hr.symm, e7, e5,
      pass_of_loop h w p c read _ s c1 hc hread hloop hu⟩

/-- Witness of C17: the events of `lifetime_events` from the empty world. All
three connections end dead: count 0, released once, closed and unlinked. -/
theorem C17_refcount_and_release_witness :
    (run_events idle_handlers empty_world lifetime_events).map
        (fun w => (w.client.connections,
          w.objs.map (fun c => (c.refcount, c.released, c.fd)))) =
      some ([], [(0, 1, -1), (0, 1, -1), (0, 1, -1)]) ∧
    ∃ w1, run_events idle_handlers empty_world lifetime_events = some w1 ∧ lifetime_ok w1 ∧
      ∀ (p : Nat) (c : auth_server_connection), w1.objs[p]? = some c →
        0 ≤ c.refcount ∧ c.released ≤ 1 ∧ (c.released = 1 ↔ c.refcount = 0) ∧
          (c.released = 1 → c.fd = -1 ∧ p ∉ w1.client.connections) :=
  ⟨by decide,
    (C17_refcount_and_release idle_handlers idle_handlers_frame empty_world lifetime_events
      (empty_world_lifetime empty_world.client rfl)).1⟩

/-- C19: with request handlers that work on the pending-request table only, take
a world of live or dead connections in which every connection that has not
completed its handshake has an empty advertised list, as it is when all
connections were created by `auth_server_connection_new`. After every sequence
of opens, processing passes and destroy calls this still holds: a connection
whose handshake is not received has an empty advertised list, however many
`MECH` lines it was sent, so it offers no mechanism, and every connection that
`auth_server_connection_find_mech` returns has received its handshake. -/
theorem C19_find_mech_needs_handshake (h : request_handlers) (hf : request_frame h)
    (w : World) (evs : List event) (hok : lifetime_ok w) (hall : all_gated w) :
    ∃ w1, run_events h w evs = some w1 ∧
      (∀ (p : Nat) (c : auth_server_connection), w1.objs[p]? = some c →
        c.handshake_received = false →
          c.available_auth_mechs = [] ∧ ∀ name, ¬ offers_mech w1 p name) ∧
      ∀ name p, auth_server_connection_find_mech w1 name = Except.ok p →
        ∃ c, w1.objs[p]? = some c ∧ c.handshake_received = true := by
  obtain ⟨w1, hrun, _⟩ := run_lifetime h hf evs w hok
  have hall1 := run_gated h hf evs w w1 hall hrun
  refine ⟨w1, hrun, ?_, ?_⟩
  · intro p c hc hs
    refine ⟨hall1 p c hc hs, ?_⟩
    intro name ho
    obtain ⟨c2, hc2, hs2⟩ := offers_needs_handshake w1 p name hall1 ho
    rw [hc] at hc2
    cases hc2
    rw [hs] at hs2
    cases hs2
  · intro name p hfind
    have hloop : find_mech_loop w1.objs name w1.client.connections = some p := by
      unfold auth_server_connection_find_mech at hfind
      cases hl : find_mech_loop w1.objs name w1.client.connections with
      | some q =>
        rw [hl] at hfind
        cases hfind
        rfl
      | none =>
        rw [hl] at hfind
        simp only [] at hfind
        split_ifs at hfind
    obtain ⟨_, _, _, ho, _⟩ := (find_mech_loop_eq_some_iff w1 name _ p).mp hloop
    exact offers_needs_handshake w1 p name hall1 ho

/-- Witness of C19: a connection that was sent `MECH PLAIN` but no `DONE` is not
returned for `PLAIN`; once `DONE` is handled it is. -/
theorem C19_find_mech_needs_handshake_witness :
    (run_events idle_handlers empty_world handshake_pending_events).map
        (fun w => (w.objs.map (fun c => (c.auth_mechs_buf, c.available_auth_mechs)),
          find_mech_loop w.objs "PLAIN" w.client.connections)) =
      some ([([{ name := "PLAIN", flags := 0 }], [])], none) ∧
    (run_events idle_handlers empty_world
        (handshake_pending_events ++ [event.input 0 5 ["DONE"]])).map
        (fun w => find_mech_loop w.objs "PLAIN" w.client.connections) = some (some 0) ∧
    ∃ w1, run_events idle_handlers empty_world handshake_pending_events = some w1 ∧
      (∀ (p : Nat) (c : auth_server_connection), w1.objs[p]? = some c →
        c.handshake_received = false →
          c.available_auth_mechs = [] ∧ ∀ name, ¬ offers_mech w1 p name) ∧
      ∀ name p, auth_server_connection_find_mech w1 name = Except.ok p →
        ∃ c, w1.objs[p]? = some c ∧ c.handshake_received = true :=
  ⟨by decide, by decide,
    C19_find_mech_needs_handshake idle_handlers idle_handlers_frame empty_world
      handshake_pending_events (empty_world_lifetime empty_world.client rfl)
      (fun q c hq => by
        have hq1 : ([] : List auth_server_connection)[q]? = some c := hq
        simp at hq1)⟩

end AuthConn
